import Mathlib

/-!
Shallow embedding of the physics/collision core of the 3DVis repository
(`simple_visualizer/core/physics_engine.py` and the sphere collider of
`simple_visualizer/core/simple_shapes.py`), together with theorems checking
the natural-language specification against it.

Modelling conventions:
* Python floats are modelled by real numbers (`ℝ`); `x ** 0.5` on a
  non-negative argument and `np.sqrt` are modelled by `Real.sqrt`.
* Python dicts (`self.objects`, `self.physics_params`, parameter records)
  are modelled by insertion-ordered association lists with the usual
  first-occurrence lookup; parameter records, whose key sets are fixed by
  `register_object`, are modelled as Lean structures, and partial dicts
  passed as overrides as structures of `Option` fields.
* `PhysicsEngine.update` reads the wall clock and clamps the elapsed time
  to 0.1 s; the embedding takes that clamped `dt` as a parameter.
* Qt signal emissions (`collider_updated`, `object_position_updated`) and
  logging are side channels never read back by the engine; they are not
  modelled.
* Python raises `ZeroDivisionError` when `friction * 9.81 / mass` is
  evaluated with `mass = 0`, or `speed / friction_deceleration` with a zero
  deceleration; in `ℝ` these divisions yield `0`.  All theorems below that
  touch those expressions assume positive mass/friction, so the two
  semantics agree on every state a theorem speaks about.
-/

namespace ThreeDVis

/-- A 3-component vector, modelling the Python 3-tuples/lists/np arrays used
for positions, velocities and accelerations. -/
structure Vec3 where
  x : ℝ
  y : ℝ
  z : ℝ

instance : Zero Vec3 := ⟨⟨0, 0, 0⟩⟩

instance : Add Vec3 := ⟨fun a b => ⟨a.x + b.x, a.y + b.y, a.z + b.z⟩⟩

instance : Sub Vec3 := ⟨fun a b => ⟨a.x - b.x, a.y - b.y, a.z - b.z⟩⟩

instance : SMul ℝ Vec3 := ⟨fun k v => ⟨k * v.x, k * v.y, k * v.z⟩⟩

/-- Componentwise dot product, modelling `sum(a*b for ...)` loops. -/
def dot (a b : Vec3) : ℝ := a.x * b.x + a.y * b.y + a.z * b.z

/-- Euclidean norm as the Python code computes it:
`sum(v*v for v in velocity) ** 0.5`. -/
noncomputable def speedOf (v : Vec3) : ℝ := Real.sqrt (dot v v)

/-- Squared distance between two points, the summand of
`sum((p1 - p2) ** 2 for p1, p2 in zip(pos1, pos2))`. -/
def dist2 (a b : Vec3) : ℝ := (a.x - b.x) ^ 2 + (a.y - b.y) ^ 2 + (a.z - b.z) ^ 2

/-- An axis-aligned bounding box as the 6-tuple
`(xmin, ymin, zmin, xmax, ymax, zmax)` used throughout the engine. -/
structure Bounds where
  xmin : ℝ
  ymin : ℝ
  zmin : ℝ
  xmax : ℝ
  ymax : ℝ
  zmax : ℝ

/-- Value stored under the `collider_type` key: either a plain string (the
default `'sphere'`) or a `CollisionType` enum constant (0..5). -/
inductive PyColliderType where
  | str : String → PyColliderType
  | enum : Nat → PyColliderType
deriving Repr, DecidableEq

/-- The `collider_data` sub-dict as `register_object` populates it: the four
default sub-keys `radius`, `bounds`, `height`, `radius_cylinder`. -/
structure ColliderData where
  radius : ℝ
  bounds : Bounds
  height : ℝ
  radius_cylinder : ℝ

/-- A partial `collider_data` dict (an override merged via `dict.update`):
each present field overwrites the stored one, absent fields are kept. -/
structure ColliderOverride where
  radius : Option ℝ := none
  bounds : Option Bounds := none
  height : Option ℝ := none
  radius_cylinder : Option ℝ := none

/-- Shallow merge `stored.update(override)` on a `collider_data` dict. -/
def ColliderData.merge (d : ColliderData) (o : ColliderOverride) : ColliderData where
  radius := o.radius.getD d.radius
  bounds := o.bounds.getD d.bounds
  height := o.height.getD d.height
  radius_cylinder := o.radius_cylinder.getD d.radius_cylinder

/-- The dict returned by an entity's `get_collision_data`, as far as
`register_object` reads it: it only ever accesses the optional keys
`'type'` and `'data'` (the concrete shapes of `simple_shapes.py` return
flat `radius`/`height`/`center` keys and no `'data'` key, which
`register_object` therefore ignores). -/
structure GetCollisionResult where
  type : Option PyColliderType := none
  data : Option ColliderOverride := none

/-- A registered entity as seen by the engine.  `boundingRadius` is the
value of `calculate_bounding_radius()` and `updBounds` the value of
`update_bounds()`; both depend only on the entity's geometry, which the
engine never changes, so they are constants of the entity.  `collision` is
`some` iff the entity defines `get_collision_data` (the base `Object3D`
does not; the shape classes do). -/
structure Entity where
  name : String
  position : Vec3
  boundingRadius : ℝ
  updBounds : Bounds
  collision : Option GetCollisionResult := none

/-- One physics parameter record, the value dict of `self.physics_params`:
exactly the keys `register_object` installs. -/
structure PhysParams where
  enabled : Bool
  mass : ℝ
  velocity : Vec3
  acceleration : Vec3
  is_static : Bool
  restitution : ℝ
  friction : ℝ
  collider_type : PyColliderType
  collider_data : ColliderData
  bounds : Bounds

/-- A partial parameter dict passed by a caller, generic in how the
`collider_data` entry is represented: `register_object` merges a partial
sub-dict into the defaults, while `set_physics_params` replaces the stored
sub-dict wholesale with a complete one. -/
structure ParamsOverrideG (γ : Type) where
  enabled : Option Bool := none
  mass : Option ℝ := none
  velocity : Option Vec3 := none
  acceleration : Option Vec3 := none
  is_static : Option Bool := none
  restitution : Option ℝ := none
  friction : Option ℝ := none
  collider_type : Option PyColliderType := none
  collider_data : Option γ := none
  bounds : Option Bounds := none

/-- Caller params for `register_object` (partial `collider_data`). -/
abbrev RegisterParams := ParamsOverrideG ColliderOverride

/-- Caller params for `set_physics_params` (wholesale `collider_data`). -/
abbrev UpdateParams := ParamsOverrideG ColliderData

/-- Net effect of `register_object`'s caller-params processing on the
record under construction: `default_params['collider_data'].update(
params.pop('collider_data'))` followed by `default_params.update(params)`,
i.e. every present top-level key overwrites the stored one, except that a
present `collider_data` is shallow-merged into the stored sub-dict. -/
def applyRegisterOv (d : PhysParams) (o : RegisterParams) : PhysParams where
  enabled := o.enabled.getD d.enabled
  mass := o.mass.getD d.mass
  velocity := o.velocity.getD d.velocity
  acceleration := o.acceleration.getD d.acceleration
  is_static := o.is_static.getD d.is_static
  restitution := o.restitution.getD d.restitution
  friction := o.friction.getD d.friction
  collider_type := o.collider_type.getD d.collider_type
  collider_data := match o.collider_data with
    | none => d.collider_data
    | some co => d.collider_data.merge co
  bounds := o.bounds.getD d.bounds

/-- Effect of `set_physics_params`' plain `stored.update(params)`: every
present key, `collider_data` included, overwrites the stored value. -/
def applyUpdateOv (d : PhysParams) (o : UpdateParams) : PhysParams where
  enabled := o.enabled.getD d.enabled
  mass := o.mass.getD d.mass
  velocity := o.velocity.getD d.velocity
  acceleration := o.acceleration.getD d.acceleration
  is_static := o.is_static.getD d.is_static
  restitution := o.restitution.getD d.restitution
  friction := o.friction.getD d.friction
  collider_type := o.collider_type.getD d.collider_type
  collider_data := o.collider_data.getD d.collider_data
  bounds := o.bounds.getD d.bounds

/-- First-occurrence lookup, `d.get(k)` / `d[k]`. -/
def dictGet {α : Type} (l : List (String × α)) (k : String) : Option α :=
  match l with
  | [] => none
  | (k', v) :: t => if k' = k then some v else dictGet t k

/-- `d[k] = v`: replace the value in place if the key exists (Python dicts
keep the original insertion position), else append. -/
def dictInsert {α : Type} (l : List (String × α)) (k : String) (v : α) :
    List (String × α) :=
  match l with
  | [] => [(k, v)]
  | (k', v') :: t => if k' = k then (k, v) :: t else (k', v') :: dictInsert t k v

/-- `d.pop(k, None)`: remove the entry for `k` if present. -/
def dictErase {α : Type} (l : List (String × α)) (k : String) :
    List (String × α) :=
  l.filter (fun kv => kv.1 ≠ k)

/-- In-place mutation of the value stored under an existing key
(`d[k].update(...)`, `obj.position = ...` through the shared reference). -/
def dictModify {α : Type} (l : List (String × α)) (k : String) (f : α → α) :
    List (String × α) :=
  match l with
  | [] => []
  | (k', v) :: t => if k' = k then (k', f v) :: t else (k', v) :: dictModify t k f

/-- Key list of a dict after `d[k] = v`, as a function of the old key list. -/
def keysAfterInsert (ks : List String) (k : String) : List String :=
  if k ∈ ks then ks else ks ++ [k]

/-- The mutable state of a `PhysicsEngine` instance: the two parallel dicts
plus the process-wide tunables.  `last_update` is absorbed into the `dt`
argument of `update`; `damping` is initialised but never read by any method
and is omitted. -/
structure EngineState where
  objects : List (String × Entity)
  physics_params : List (String × PhysParams)
  gravity : Vec3
  velocity_threshold : ℝ

/-- The state `PhysicsEngine.__init__` builds. -/
noncomputable def initState : EngineState where
  objects := []
  physics_params := []
  gravity := ⟨0, 0, -(981 / 100)⟩
  velocity_threshold := 1 / 100

/-- The `default_params['collider_data']` dict computed at registration from
the entity's bounding radius and AABB. -/
noncomputable def defaultColliderData (e : Entity) : ColliderData where
  radius := e.boundingRadius
  bounds := e.updBounds
  height := e.boundingRadius * 2
  radius_cylinder := e.boundingRadius * (1 / 2)

/-- The `default_params` record `register_object` computes before looking at
the entity's `get_collision_data` and the caller-supplied params. -/
noncomputable def computedDefaults (s : EngineState) (e : Entity) : PhysParams where
  enabled := true
  mass := 1
  velocity := ⟨0, 0, 0⟩
  acceleration := s.gravity
  is_static := false
  restitution := 1 / 2
  friction := 3 / 10
  collider_type := .str "sphere"
  collider_data := defaultColliderData e
  bounds := e.updBounds

/-- Embeds `PhysicsEngine.register_object(obj, params)`.  Stage 1 computes
the defaults; stage 2, present only when the entity defines
`get_collision_data`, takes `collision_data.get('type', 'sphere')` as the
collider type and shallow-merges `collision_data.get('data',
default_collider_data)` into the default `collider_data` (a missing
`'data'` key therefore merges the defaults into themselves, changing
nothing); stage 3 merges the caller params, with the popped `collider_data`
shallow-merged into the sub-dict.  Both dicts then gain the entry. -/
noncomputable def registerObject (s : EngineState) (e : Entity) (pOv : Option RegisterParams) :
    EngineState :=
  let d0 := computedDefaults s e
  let d1 : PhysParams :=
    match e.collision with
    | none => d0
    | some cd =>
      { d0 with
        collider_type := cd.type.getD (.str "sphere")
        collider_data := d0.collider_data.merge (cd.data.getD {}) }
  let d2 : PhysParams :=
    match pOv with
    | none => d1
    | some po => applyRegisterOv d1 po
  { s with
    objects := dictInsert s.objects e.name e
    physics_params := dictInsert s.physics_params e.name d2 }

/-- Embeds `PhysicsEngine.unregister_object(name)`: `dict.pop(name, None)`
on both dicts, never raising. -/
def unregisterObject (s : EngineState) (n : String) : EngineState :=
  { s with
    objects := dictErase s.objects n
    physics_params := dictErase s.physics_params n }

/-- Embeds `PhysicsEngine.get_physics_params(name)`. -/
def getPhysicsParams (s : EngineState) (n : String) : Option PhysParams :=
  dictGet s.physics_params n

/-- Embeds `PhysicsEngine.set_physics_params(name, params)`: a plain shallow
`update` of the stored record when the name is registered, a no-op
otherwise. -/
def setPhysicsParams (s : EngineState) (n : String) (o : UpdateParams) :
    EngineState :=
  if (dictGet s.physics_params n).isSome then
    { s with physics_params := dictModify s.physics_params n (fun p => applyUpdateOv p o) }
  else s

/-- Exceptions the embedded code can raise. -/
inductive PyError where
  | typeError
deriving Repr, DecidableEq

/-- Embeds `PhysicsEngine.set_gravity(gravity)`.  The source reads

```
self.gravity = gravity
for obj in self.objects.values():
    if not obj['is_static']: obj['acceleration'] = list(gravity)
```

The loop iterates over the *entity objects*, not their parameter records,
and subscripts them; `Mesh3D`/`Object3D` define no `__getitem__` (they are
`QObject` subclasses), so the first iteration raises `TypeError` whenever
any object is registered.  `self.gravity` has already been reassigned at
that point, and no parameter record is touched.  The embedding returns the
post-mutation state together with the raised exception, if any. -/
def setGravity (s : EngineState) (g : Vec3) : EngineState × Option PyError :=
  let s1 := { s with gravity := g }
  (s1, if s1.objects.isEmpty then none else some .typeError)

/-- Friction applied to the velocity at the start of a sub-step, from
`PhysicsEngine.update`: when the speed is positive, each non-zero component
is decelerated against the direction of motion by
`friction * 9.81 / mass`, with the time step capped at `speed /
friction_deceleration` so the deceleration cannot overshoot zero speed. -/
noncomputable def applyFriction (dt : ℝ) (p : PhysParams) (v : Vec3) : Vec3 :=
  let speed := speedOf v
  if speed > 0 then
    let fd := p.friction * (981 / 100) / p.mass
    let fdt := min dt (speed / fd)
    let fc : ℝ → ℝ := fun vi => if |vi| > 0 then vi + -(vi / speed) * fd * fdt else vi
    ⟨fc v.x, fc v.y, fc v.z⟩
  else v

/-- The velocity a dynamic entity carries into position integration:
friction, then `acceleration * dt`, then the anti-jitter clamp to zero when
the speed drops below the engine threshold. -/
noncomputable def newVelocity (thr dt : ℝ) (p : PhysParams) : Vec3 :=
  let v := applyFriction dt p p.velocity
  let v : Vec3 := ⟨v.x + p.acceleration.x * dt, v.y + p.acceleration.y * dt,
    v.z + p.acceleration.z * dt⟩
  if speedOf v < thr then ⟨0, 0, 0⟩ else v

/-- Position integration plus the ground-plane clamp of
`PhysicsEngine.update`: move by `velocity * dt`; if the new `z` is
negative, clamp it to `0` and reflect the vertical velocity scaled by the
restitution.  Returns the new `(position, velocity)`. -/
noncomputable def integrateStep (thr dt : ℝ) (pos : Vec3) (p : PhysParams) :
    Vec3 × Vec3 :=
  let v := newVelocity thr dt p
  let pos1 : Vec3 := ⟨pos.x + v.x * dt, pos.y + v.y * dt, pos.z + v.z * dt⟩
  if pos1.z < 0 then
    (⟨pos1.x, pos1.y, 0⟩, ⟨v.x, v.y, -v.z * p.restitution⟩)
  else (pos1, v)

/-- One iteration of the per-object loop of `PhysicsEngine.update`: skip
disabled entities; refresh the cached `bounds`; for dynamic entities also
integrate velocity and position.  (Python indexes
`self.physics_params[name]` directly and would raise `KeyError` on a name
without a record; by the registration invariant proved below the two dicts
always hold the same names, so the fall-through branch is unreachable from
the engine's API.) -/
noncomputable def integrateOne (dt : ℝ) (s : EngineState) (n : String) : EngineState :=
  match dictGet s.objects n, dictGet s.physics_params n with
  | some e, some p =>
    if p.enabled then
      let p1 := { p with bounds := e.updBounds }
      if p1.is_static then
        { s with physics_params := dictModify s.physics_params n (fun _ => p1) }
      else
        let pv := integrateStep s.velocity_threshold dt e.position p1
        { s with
          objects := dictModify s.objects n (fun e0 => { e0 with position := pv.1 })
          physics_params :=
            dictModify s.physics_params n (fun _ => { p1 with velocity := pv.2 }) }
    else s
  | _, _ => s

/-- The integration phase: the per-object loop over a snapshot of the
object dict's entries. -/
noncomputable def integratePhase (dt : ℝ) (s : EngineState) : EngineState :=
  (s.objects.map Prod.fst).foldl (integrateOne dt) s

/-- Embeds `PhysicsEngine._check_collision(obj1, obj2)`: reject pairs that
are both static or not both enabled; then compare the centre distance with
the summed bounding radii, ignoring penetrations below 1 % of that sum. -/
noncomputable def checkCollision (s : EngineState) (n1 n2 : String) : Bool :=
  match dictGet s.objects n1, dictGet s.objects n2,
      dictGet s.physics_params n1, dictGet s.physics_params n2 with
  | some o1, some o2, some p1, some p2 =>
    if p1.is_static && p2.is_static then false
    else if !(p1.enabled && p2.enabled) then false
    else
      let size1 := o1.boundingRadius
      let size2 := o2.boundingRadius
      let distance := Real.sqrt (dist2 o1.position o2.position)
      let penetration := (size1 + size2) - distance
      let minPen := (size1 + size2) * (1 / 100)
      if penetration < minPen then false
      else decide (distance < size1 + size2)
  | _, _, _, _ => false

/-- The writes `_handle_collision` performs on a colliding pair: each field
is `some` exactly when the Python code assigns the corresponding attribute
(`obj.position` for a non-static side's positional correction,
`params['velocity']` for a non-static side's impulse). -/
structure PairUpdate where
  pos1 : Option Vec3 := none
  pos2 : Option Vec3 := none
  vel1 : Option Vec3 := none
  vel2 : Option Vec3 := none

/-- `direction = [p2 - p1 ...]` of `_handle_collision`: the vector from
entity 1's centre to entity 2's. -/
def collisionDir (o1 o2 : Entity) : Vec3 := o2.position - o1.position

/-- `length = sum(d*d ...) ** 0.5`: the distance between the centres. -/
noncomputable def collisionLen (o1 o2 : Entity) : ℝ :=
  Real.sqrt (dot (collisionDir o1 o2) (collisionDir o1 o2))

/-- `normal = [d/length ...]`: the collision normal from entity 1 to 2. -/
noncomputable def collisionNormal (o1 o2 : Entity) : Vec3 :=
  ⟨(collisionDir o1 o2).x / collisionLen o1 o2,
   (collisionDir o1 o2).y / collisionLen o1 o2,
   (collisionDir o1 o2).z / collisionLen o1 o2⟩

/-- `penetration = (size1 + size2) - length` of `_handle_collision`. -/
noncomputable def penDepth (o1 o2 : Entity) : ℝ :=
  (o1.boundingRadius + o2.boundingRadius) - collisionLen o1 o2

/-- The positional-correction split `(ratio1, ratio2)`: inverse-mass ratio
when both sides are dynamic, all on the dynamic side otherwise. -/
noncomputable def corrRatios (p1 p2 : PhysParams) : ℝ × ℝ :=
  if !p1.is_static && !p2.is_static then
    (p2.mass / (p1.mass + p2.mass), p1.mass / (p1.mass + p2.mass))
  else if p1.is_static then (0, 1)
  else (1, 0)

/-- Entity 1's corrected position `pos1[i] -= normal[i]*correction*ratio1`
with `correction = penetration * 1`. -/
noncomputable def corrPos1 (o1 o2 : Entity) (p1 p2 : PhysParams) : Vec3 :=
  ⟨o1.position.x - (collisionNormal o1 o2).x * (penDepth o1 o2 * 1) * (corrRatios p1 p2).1,
   o1.position.y - (collisionNormal o1 o2).y * (penDepth o1 o2 * 1) * (corrRatios p1 p2).1,
   o1.position.z - (collisionNormal o1 o2).z * (penDepth o1 o2 * 1) * (corrRatios p1 p2).1⟩

/-- Entity 2's corrected position `pos2[i] += normal[i]*correction*ratio2`. -/
noncomputable def corrPos2 (o1 o2 : Entity) (p1 p2 : PhysParams) : Vec3 :=
  ⟨o2.position.x + (collisionNormal o1 o2).x * (penDepth o1 o2 * 1) * (corrRatios p1 p2).2,
   o2.position.y + (collisionNormal o1 o2).y * (penDepth o1 o2 * 1) * (corrRatios p1 p2).2,
   o2.position.z + (collisionNormal o1 o2).z * (penDepth o1 o2 * 1) * (corrRatios p1 p2).2⟩

/-- `normal_velocity`: the relative velocity of the pair projected on the
collision normal. -/
noncomputable def normalVelocity (o1 o2 : Entity) (p1 p2 : PhysParams) : ℝ :=
  dot ⟨p1.velocity.x - p2.velocity.x, p1.velocity.y - p2.velocity.y,
    p1.velocity.z - p2.velocity.z⟩ (collisionNormal o1 o2)

/-- The impulse magnitude `j`: `-(1 + restitution) * normal_velocity` with
`restitution = min(rest1, rest2) * 1.2`, divided by `1/m1 + 1/m2` when
both sides are dynamic and multiplied by the dynamic side's mass when the
other is static. -/
noncomputable def impulseJ (o1 o2 : Entity) (p1 p2 : PhysParams) : ℝ :=
  let j0 := -(1 + min p1.restitution p2.restitution * (6 / 5))
    * normalVelocity o1 o2 p1 p2
  if !p1.is_static && !p2.is_static then j0 / (1 / p1.mass + 1 / p2.mass)
  else if p1.is_static then j0 * p2.mass
  else j0 * p1.mass

/-- Entity 1's post-impulse velocity `v1[i] += (j * normal[i]) / m1`. -/
noncomputable def impulseV1 (o1 o2 : Entity) (p1 p2 : PhysParams) : Vec3 :=
  ⟨p1.velocity.x + impulseJ o1 o2 p1 p2 * (collisionNormal o1 o2).x / p1.mass,
   p1.velocity.y + impulseJ o1 o2 p1 p2 * (collisionNormal o1 o2).y / p1.mass,
   p1.velocity.z + impulseJ o1 o2 p1 p2 * (collisionNormal o1 o2).z / p1.mass⟩

/-- Entity 2's post-impulse velocity `v2[i] -= (j * normal[i]) / m2`. -/
noncomputable def impulseV2 (o1 o2 : Entity) (p1 p2 : PhysParams) : Vec3 :=
  ⟨p2.velocity.x - impulseJ o1 o2 p1 p2 * (collisionNormal o1 o2).x / p2.mass,
   p2.velocity.y - impulseJ o1 o2 p1 p2 * (collisionNormal o1 o2).y / p2.mass,
   p2.velocity.z - impulseJ o1 o2 p1 p2 * (collisionNormal o1 o2).z / p2.mass⟩

/-- The computational core of `PhysicsEngine._handle_collision(obj1, obj2)`,
operating on the captured state (the Python code reads all masses,
velocities and positions before writing anything): early-out when both
sides are static, the centre distance is zero, or the penetration is below
`0.001`; otherwise positional correction, and — unless the pair is
separating along the normal (`normal_velocity > 0`) — the impulse applied
to each dynamic side's velocity. -/
noncomputable def pairOutcome (o1 o2 : Entity) (p1 p2 : PhysParams) : PairUpdate :=
  if p1.is_static && p2.is_static then {}
  else if collisionLen o1 o2 = 0 then {}
  else if penDepth o1 o2 < 1 / 1000 then {}
  else
    let newPos1 : Option Vec3 :=
      if p1.is_static then none else some (corrPos1 o1 o2 p1 p2)
    let newPos2 : Option Vec3 :=
      if p2.is_static then none else some (corrPos2 o1 o2 p1 p2)
    if normalVelocity o1 o2 p1 p2 > 0 then { pos1 := newPos1, pos2 := newPos2 }
    else
      { pos1 := newPos1
        pos2 := newPos2
        vel1 := if p1.is_static then none else some (impulseV1 o1 o2 p1 p2)
        vel2 := if p2.is_static then none else some (impulseV2 o1 o2 p1 p2) }

/-- Write-back of an entity position (`obj.position = tuple(pos)`). -/
def writePos (s : EngineState) (n : String) (q : Option Vec3) : EngineState :=
  match q with
  | none => s
  | some pos => { s with objects := dictModify s.objects n (fun e =>
      { e with position := pos }) }

/-- Write-back of a stored velocity (`params['velocity'] = tuple(v)`). -/
def writeVel (s : EngineState) (n : String) (w : Option Vec3) : EngineState :=
  match w with
  | none => s
  | some v => { s with physics_params := dictModify s.physics_params n (fun p =>
      { p with velocity := v }) }

/-- Embeds `PhysicsEngine._handle_collision(obj1, obj2)`: compute the
outcome from the captured state, then perform the four writes in program
order (position of `obj1`, position of `obj2`, velocity of `obj1`,
velocity of `obj2`; the separating-velocity early return has already
performed the two position writes). -/
noncomputable def handleCollision (s : EngineState) (n1 n2 : String) : EngineState :=
  match dictGet s.objects n1, dictGet s.objects n2,
      dictGet s.physics_params n1, dictGet s.physics_params n2 with
  | some o1, some o2, some p1, some p2 =>
    let u := pairOutcome o1 o2 p1 p2
    writeVel (writeVel (writePos (writePos s n1 u.pos1) n2 u.pos2) n1 u.vel1) n2 u.vel2
  | _, _, _, _ => s

/-- All unordered pairs, in the nested-loop order of
`PhysicsEngine._check_collisions` (`i` outer, `j > i` inner). -/
def pairsOf {α : Type} : List α → List (α × α)
  | [] => []
  | a :: t => t.map (fun b => (a, b)) ++ pairsOf t

/-- Embeds `PhysicsEngine._check_collisions`: visit every unordered pair of
registered objects and resolve those that test positive. -/
noncomputable def collisionPhase (s : EngineState) : EngineState :=
  (pairsOf (s.objects.map Prod.fst)).foldl
    (fun s' q => if checkCollision s' q.1 q.2 then handleCollision s' q.1 q.2 else s') s

/-- Embeds one `PhysicsEngine.update()` call with clamped elapsed time
`dt = min(now - last_update, 0.1)`: integrate every enabled object, then
run the pairwise collision pass. -/
noncomputable def update (dt : ℝ) (s : EngineState) : EngineState :=
  collisionPhase (integratePhase dt s)

/-- A sequence of `update()` calls with the given elapsed times. -/
noncomputable def updates (dts : List ℝ) (s : EngineState) : EngineState :=
  dts.foldl (fun s' dt => update dt s') s

/-- The state of a `Sphere3D` that its collision methods read: its position,
its stored collider radius and its scale vector. -/
structure Sphere3D where
  position : Vec3
  radius : ℝ
  scale : Vec3

/-- `max(self.scale)` on the scale 3-tuple. -/
def max3 (v : Vec3) : ℝ := max v.x (max v.y v.z)

/-- The scaled radius `self._collision_data['radius'] * max(self.scale)`
used by `get_collision_data`, `ray_intersect` and
`calculate_bounding_radius`. -/
def Sphere3D.scaledRadius (sp : Sphere3D) : ℝ := sp.radius * max3 sp.scale

/-- Embeds `Sphere3D.ray_intersect(ray_origin, ray_direction)`: set up the
quadratic `a t² + b t + c = 0` for `|O + tD - C|² = r²`; if the
discriminant is negative return `None`, otherwise return
`t = (-b - sqrt(disc)) / (2 a)` if it is positive and `None` if not. -/
noncomputable def Sphere3D.rayIntersect (sp : Sphere3D) (o d : Vec3) : Option ℝ :=
  let c := sp.position
  let r := sp.scaledRadius
  let oc : Vec3 := o - c
  let a := dot d d
  let b := 2 * dot oc d
  let cc := dot oc oc - r * r
  let disc := b * b - 4 * a * cc
  if disc < 0 then none
  else
    let t := (-b - Real.sqrt disc) / (2 * a)
    if t > 0 then some t else none

/-- The sphere equation of C3's quadratic: parameter `t` hits the sphere
when `|O + tD - C|² = r²` (with `r` the scaled radius). -/
def Sphere3D.hitAt (sp : Sphere3D) (o d : Vec3) (t : ℝ) : Prop :=
  dot (o + t • d - sp.position) (o + t • d - sp.position) =
    sp.scaledRadius * sp.scaledRadius

/-- Written from the spec's words, not the code: the contribution of the
entity's `get_collision_data()` to the parameter record, as a partial
record — its collider type (defaulting to `'sphere'`) and its collider
data fields. -/
def entityOverride (e : Entity) : RegisterParams :=
  match e.collision with
  | none => {}
  | some cd =>
    { collider_type := some (cd.type.getD (.str "sphere"))
      collider_data := some (cd.data.getD {}) }

/-- Written from the spec's words, not the code: the parameter record as
"three ordered shallow merges — computed defaults, then the fields of the
entity's own `get_collision_data()`, then the caller-supplied params, each
step overwriting only the keys it provides". -/
noncomputable def specRegisterRecord (s : EngineState) (e : Entity) (pOv : Option RegisterParams) :
    PhysParams :=
  applyRegisterOv (applyRegisterOv (computedDefaults s e) (entityOverride e))
    (pOv.getD {})

/-- Engine states reachable from a fresh `PhysicsEngine()` through its
public mutating API. -/
inductive Reachable : EngineState → Prop where
  | init : Reachable initState
  | register {s : EngineState} (e : Entity) (pOv : Option RegisterParams) :
      Reachable s → Reachable (registerObject s e pOv)
  | unregister {s : EngineState} (n : String) :
      Reachable s → Reachable (unregisterObject s n)
  | setParams {s : EngineState} (n : String) (o : UpdateParams) :
      Reachable s → Reachable (setPhysicsParams s n o)
  | step {s : EngineState} (dt : ℝ) : Reachable s → Reachable (update dt s)

/-- A concrete dynamic entity used by the counterexample states. -/
noncomputable def ballEntity : Entity where
  name := "ball"
  position := ⟨0, 0, 5⟩
  boundingRadius := 1
  updBounds := ⟨-1, -1, -1, 1, 1, 1⟩

/-- A fresh engine with the single dynamic entity `ballEntity` registered
with default parameters. -/
noncomputable def gravityBugState : EngineState :=
  registerObject initState ballEntity none

/-- A unit sphere at the origin with unit scale, as built by
`Sphere3D('s', radius=1.0)`. -/
noncomputable def unitSphere : Sphere3D where
  position := ⟨0, 0, 0⟩
  radius := 1
  scale := ⟨1, 1, 1⟩

/-- The velocity stored for a name, `physics_params[n]['velocity']`. -/
def velAt (s : EngineState) (n : String) : Option Vec3 :=
  (dictGet s.physics_params n).map PhysParams.velocity

/-- The position of a registered entity, `objects[n].position`. -/
def posAt (s : EngineState) (n : String) : Option Vec3 :=
  (dictGet s.objects n).map Entity.position

/-- An entity whose geometry is a single vertex at the origin, as produced
by `Mesh3D('x', np.array([[0,0,0]]), ...)`: `calculate_bounding_radius`
(the maximum distance from the vertex centroid) returns `0`, and
`update_bounds` returns the degenerate box. -/
noncomputable def pointEntity (nm : String) : Entity where
  name := nm
  position := ⟨0, 0, 0⟩
  boundingRadius := 0
  updBounds := ⟨0, 0, 0, 0, 0, 0⟩

/-- Two zero-radius dynamic entities registered at the same position. -/
noncomputable def zeroRadiusState : EngineState :=
  registerObject (registerObject initState (pointEntity "a") none)
    (pointEntity "b") none

/-- Two overlapping unit-radius entities for the C6 witness. -/
noncomputable def sphereEntA : Entity where
  name := "a"
  position := ⟨0, 0, 0⟩
  boundingRadius := 1
  updBounds := ⟨-1, -1, -1, 1, 1, 1⟩

/-- Second entity of the overlapping pair, one unit along x. -/
noncomputable def sphereEntB : Entity where
  name := "b"
  position := ⟨1, 0, 0⟩
  boundingRadius := 1
  updBounds := ⟨0, -1, -1, 2, 1, 1⟩

/-- A fresh engine with the two overlapping dynamic entities registered. -/
noncomputable def collideState : EngineState :=
  registerObject (registerObject initState sphereEntA none) sphereEntB none

/-- The name `n` is registered with a static parameter record, the entity
sitting at `pos` with stored velocity `v`. -/
def StaticAt (s : EngineState) (n : String) (pos v : Vec3) : Prop :=
  ∃ e p, dictGet s.objects n = some e ∧ e.position = pos
    ∧ dictGet s.physics_params n = some p ∧ p.is_static = true ∧ p.velocity = v

/-- A static box entity used in concrete states. -/
noncomputable def floorEntity : Entity where
  name := "floor"
  position := ⟨0, 0, 0⟩
  boundingRadius := 5
  updBounds := ⟨-5, -5, -1, 5, 5, 0⟩

/-- A fresh engine with a static floor and a dynamic ball registered. -/
noncomputable def staticSceneState : EngineState :=
  registerObject (registerObject initState floorEntity
    (some { is_static := some true })) ballEntity none

/-- Invariant for C5's multi-tick part: the engine still holds exactly the
one enabled dynamic entity, now at a height of at least `0`. -/
def SingleDynAbove (n : String) (g : Vec3) (thr : ℝ) (s : EngineState) : Prop :=
  ∃ e' p', s = ⟨[(n, e')], [(n, p')], g, thr⟩
    ∧ p'.enabled = true ∧ p'.is_static = false ∧ 0 ≤ e'.position.z

/-- Concrete sliding entity for the C8 witness. -/
noncomputable def sliderEntity : Entity where
  name := "slider"
  position := ⟨0, 0, 1⟩
  boundingRadius := 1
  updBounds := ⟨-1, -1, -1, 1, 1, 1⟩

/-- Parameter record of the sliding entity: unit mass, default friction,
horizontal unit velocity, no acceleration. -/
noncomputable def sliderParams : PhysParams where
  enabled := true
  mass := 1
  velocity := ⟨1, 0, 0⟩
  acceleration := ⟨0, 0, 0⟩
  is_static := false
  restitution := 1 / 2
  friction := 3 / 10
  collider_type := .str "sphere"
  collider_data := ⟨1, ⟨-1, -1, -1, 1, 1, 1⟩, 2, 1 / 2⟩
  bounds := ⟨-1, -1, -1, 1, 1, 1⟩

theorem dictGet_insert_self {α : Type} (l : List (String × α)) (k : String) (v : α) :
    dictGet (dictInsert l k v) k = some v := by
  induction l with
  | nil => simp [dictInsert, dictGet]
  | cons hd t ih =>
    by_cases h : hd.1 = k
    · simp [dictInsert, dictGet, h]
    · simpa [dictInsert, dictGet, h] using ih

theorem dictGet_insert_ne {α : Type} (l : List (String × α)) (k k' : String) (v : α)
    (h : k ≠ k') : dictGet (dictInsert l k v) k' = dictGet l k' := by
  induction l with
  | nil => simp [dictInsert, dictGet, h]
  | cons hd t ih =>
    by_cases hh : hd.1 = k
    · simp [dictInsert, dictGet, hh, h]
    · simp only [dictInsert, hh, if_false, dictGet]
      by_cases hk : hd.1 = k' <;> simp [hk, ih]

theorem dictGet_erase_self {α : Type} (l : List (String × α)) (k : String) :
    dictGet (dictErase l k) k = none := by
  induction l with
  | nil => simp [dictErase, dictGet]
  | cons hd t ih =>
    by_cases h : hd.1 = k
    · simpa [dictErase, h] using ih
    · simpa [dictErase, dictGet, h] using ih

theorem dictErase_idem {α : Type} (l : List (String × α)) (k : String) :
    dictErase (dictErase l k) k = dictErase l k := by
  simp [dictErase, List.filter_filter]

theorem dictErase_of_get_none {α : Type} (l : List (String × α)) (k : String)
    (h : dictGet l k = none) : dictErase l k = l := by
  induction l with
  | nil => simp [dictErase]
  | cons hd t ih =>
    by_cases hh : hd.1 = k
    · simp [dictGet, hh] at h
    · simp only [dictGet, hh, if_false] at h
      simpa [dictErase, hh] using ih h

theorem dictGet_modify_self {α : Type} (l : List (String × α)) (k : String)
    (f : α → α) (v : α) (h : dictGet l k = some v) :
    dictGet (dictModify l k f) k = some (f v) := by
  induction l with
  | nil => simp [dictGet] at h
  | cons hd t ih =>
    by_cases hh : hd.1 = k
    · simp [dictGet, hh] at h
      simp [dictModify, dictGet, hh, h]
    · simp only [dictGet, hh, if_false] at h
      simpa [dictModify, dictGet, hh] using ih h

theorem dictGet_modify_ne {α : Type} (l : List (String × α)) (k k' : String)
    (f : α → α) (h : k ≠ k') : dictGet (dictModify l k f) k' = dictGet l k' := by
  induction l with
  | nil => simp [dictModify]
  | cons hd t ih =>
    by_cases hh : hd.1 = k
    · simp [dictModify, dictGet, hh, h]
    · simp only [dictModify, hh, if_false, dictGet]
      by_cases hk : hd.1 = k' <;> simp [hk, ih]

theorem dictModify_keys {α : Type} (l : List (String × α)) (k : String) (f : α → α) :
    (dictModify l k f).map Prod.fst = l.map Prod.fst := by
  induction l with
  | nil => simp [dictModify]
  | cons hd t ih =>
    by_cases hh : hd.1 = k <;> simp [dictModify, hh, ih]

theorem dictInsert_keys {α : Type} (l : List (String × α)) (k : String) (v : α) :
    (dictInsert l k v).map Prod.fst = keysAfterInsert (l.map Prod.fst) k := by
  induction l with
  | nil => simp [dictInsert, keysAfterInsert]
  | cons hd t ih =>
    by_cases hh : hd.1 = k
    · simp [dictInsert, keysAfterInsert, hh]
    · have hne : ¬k = hd.1 := fun h => hh h.symm
      simp only [dictInsert, hh, if_false, List.map_cons, keysAfterInsert,
        List.mem_cons, hne, false_or, ih]
      by_cases hm : k ∈ t.map Prod.fst <;> simp [hm]

theorem dictErase_keys {α : Type} (l : List (String × α)) (k : String) :
    (dictErase l k).map Prod.fst = (l.map Prod.fst).filter (fun n => n ≠ k) := by
  induction l with
  | nil => simp [dictErase]
  | cons hd t ih =>
    simp only [dictErase, ne_eq, decide_not] at ih ⊢
    by_cases hh : hd.1 = k <;> simp [List.filter_cons, hh, ih]

theorem dictGet_isSome_iff {α : Type} (l : List (String × α)) (k : String) :
    (dictGet l k).isSome ↔ k ∈ l.map Prod.fst := by
  induction l with
  | nil => simp [dictGet]
  | cons hd t ih =>
    by_cases hh : hd.1 = k
    · simp [dictGet, hh]
    · have hne : ¬k = hd.1 := fun h => hh h.symm
      simp [dictGet, hh, hne, ih]

theorem dictGet_eq_none_of_not_mem {α : Type} (l : List (String × α)) (k : String)
    (h : k ∉ l.map Prod.fst) : dictGet l k = none := by
  cases hg : dictGet l k with
  | none => rfl
  | some v =>
    exact absurd ((dictGet_isSome_iff l k).mp (by simp [hg])) h

theorem applyRegisterOv_empty (d : PhysParams) : applyRegisterOv d {} = d := rfl

theorem integrateOne_keys (dt : ℝ) (s : EngineState) (n : String) :
    (integrateOne dt s n).objects.map Prod.fst = s.objects.map Prod.fst
    ∧ (integrateOne dt s n).physics_params.map Prod.fst
        = s.physics_params.map Prod.fst := by
  unfold integrateOne
  split
  · split
    · dsimp only
      split <;> simp [dictModify_keys]
    · exact ⟨rfl, rfl⟩
  · exact ⟨rfl, rfl⟩

theorem writePos_keys (s : EngineState) (n : String) (q : Option Vec3) :
    (writePos s n q).objects.map Prod.fst = s.objects.map Prod.fst
    ∧ (writePos s n q).physics_params = s.physics_params := by
  cases q <;> simp [writePos, dictModify_keys]

theorem writeVel_keys (s : EngineState) (n : String) (w : Option Vec3) :
    (writeVel s n w).objects = s.objects
    ∧ (writeVel s n w).physics_params.map Prod.fst
        = s.physics_params.map Prod.fst := by
  cases w <;> simp [writeVel, dictModify_keys]

theorem handleCollision_keys (s : EngineState) (n1 n2 : String) :
    (handleCollision s n1 n2).objects.map Prod.fst = s.objects.map Prod.fst
    ∧ (handleCollision s n1 n2).physics_params.map Prod.fst
        = s.physics_params.map Prod.fst := by
  unfold handleCollision
  split
  · dsimp only
    constructor
    · rw [(writeVel_keys _ _ _).1, (writeVel_keys _ _ _).1,
        (writePos_keys _ _ _).1, (writePos_keys _ _ _).1]
    · rw [(writeVel_keys _ _ _).2, (writeVel_keys _ _ _).2,
        (writePos_keys _ _ _).2, (writePos_keys _ _ _).2]
  · exact ⟨rfl, rfl⟩

theorem foldl_integrateOne_keys (dt : ℝ) (ns : List String) (s : EngineState) :
    ((ns.foldl (integrateOne dt) s).objects.map Prod.fst = s.objects.map Prod.fst)
    ∧ ((ns.foldl (integrateOne dt) s).physics_params.map Prod.fst
        = s.physics_params.map Prod.fst) := by
  induction ns generalizing s with
  | nil => exact ⟨rfl, rfl⟩
  | cons a t ih =>
    simp only [List.foldl_cons]
    exact ⟨(ih (integrateOne dt s a)).1.trans (integrateOne_keys dt s a).1,
      (ih (integrateOne dt s a)).2.trans (integrateOne_keys dt s a).2⟩

theorem integratePhase_keys (dt : ℝ) (s : EngineState) :
    (integratePhase dt s).objects.map Prod.fst = s.objects.map Prod.fst
    ∧ (integratePhase dt s).physics_params.map Prod.fst
        = s.physics_params.map Prod.fst :=
  foldl_integrateOne_keys dt (s.objects.map Prod.fst) s

theorem foldl_pairs_keys (qs : List (String × String)) (s : EngineState) :
    ((qs.foldl (fun s' q =>
        if checkCollision s' q.1 q.2 then handleCollision s' q.1 q.2 else s')
      s).objects.map Prod.fst = s.objects.map Prod.fst)
    ∧ ((qs.foldl (fun s' q =>
        if checkCollision s' q.1 q.2 then handleCollision s' q.1 q.2 else s')
      s).physics_params.map Prod.fst = s.physics_params.map Prod.fst) := by
  induction qs generalizing s with
  | nil => exact ⟨rfl, rfl⟩
  | cons q t ih =>
    simp only [List.foldl_cons]
    have hk : (if checkCollision s q.1 q.2 then handleCollision s q.1 q.2
          else s).objects.map Prod.fst = s.objects.map Prod.fst
        ∧ (if checkCollision s q.1 q.2 then handleCollision s q.1 q.2
          else s).physics_params.map Prod.fst = s.physics_params.map Prod.fst := by
      split
      · exact handleCollision_keys s q.1 q.2
      · exact ⟨rfl, rfl⟩
    exact ⟨(ih _).1.trans hk.1, (ih _).2.trans hk.2⟩

theorem collisionPhase_keys (s : EngineState) :
    (collisionPhase s).objects.map Prod.fst = s.objects.map Prod.fst
    ∧ (collisionPhase s).physics_params.map Prod.fst
        = s.physics_params.map Prod.fst :=
  foldl_pairs_keys (pairsOf (s.objects.map Prod.fst)) s

theorem update_keys (dt : ℝ) (s : EngineState) :
    (update dt s).objects.map Prod.fst = s.objects.map Prod.fst
    ∧ (update dt s).physics_params.map Prod.fst = s.physics_params.map Prod.fst := by
  unfold update
  exact ⟨(collisionPhase_keys _).1.trans (integratePhase_keys dt s).1,
    (collisionPhase_keys _).2.trans (integratePhase_keys dt s).2⟩

/-- C1: claimed — `set_gravity(g)` sets the engine gravity to `g` and
replaces the `acceleration` of every currently registered non-static
entity's parameter record, without raising.  The code instead iterates
over `self.objects.values()` — the entity objects, which are not
subscriptable — so as soon as any object is registered the call raises
`TypeError` after reassigning `self.gravity`, and no parameter record is
ever updated.  This theorem evaluates the embedded `set_gravity` at the
failing input: a fresh engine holding one registered dynamic entity. -/
theorem set_gravity_is_broken :
    (∀ (s : EngineState) (g : Vec3),
      (setGravity s g).1.gravity = g
      ∧ (setGravity s g).1.physics_params = s.physics_params
      ∧ ((setGravity s g).2 = none ↔ s.objects = []))
    ∧ (setGravity gravityBugState ⟨0, -5, 0⟩).2 = some PyError.typeError
    ∧ (getPhysicsParams gravityBugState "ball").map PhysParams.is_static
        = some false := by
  refine ⟨fun s g => ⟨rfl, rfl, ?_⟩, ?_, ?_⟩
  · simp [setGravity, List.isEmpty_iff]
  · simp [setGravity, gravityBugState, registerObject, initState, dictInsert]
  · simp [gravityBugState, getPhysicsParams, registerObject, initState,
      dictInsert, dictGet, computedDefaults, ballEntity]

/-- C2: `register_object` builds the parameter record by three ordered
shallow merges — computed defaults (collider defaults from the entity's
bounding radius and AABB), then the fields of the entity's
`get_collision_data()` when it exposes one, then the caller-supplied
params — each step overwriting only the keys it provides; in particular a
`collider_data` override providing only one sub-key leaves the other
default sub-keys intact.  `specRegisterRecord` is written from the spec's
wording and proved equal to what the code stores. -/
theorem register_object_three_merges (s : EngineState) (e : Entity)
    (pOv : Option RegisterParams) :
    dictGet (registerObject s e pOv).objects e.name = some e
    ∧ dictGet (registerObject s e pOv).physics_params e.name
        = some (specRegisterRecord s e pOv)
    ∧ (∀ (d : ColliderData) (r : ℝ),
        (d.merge { radius := some r }).radius = r
        ∧ (d.merge { radius := some r }).bounds = d.bounds
        ∧ (d.merge { radius := some r }).height = d.height
        ∧ (d.merge { radius := some r }).radius_cylinder = d.radius_cylinder) := by
  refine ⟨dictGet_insert_self _ _ _, ?_, fun d r => ⟨rfl, rfl, rfl, rfl⟩⟩
  rcases hc : e.collision with _ | cd <;> rcases pOv with _ | po <;>
    simp [registerObject, hc, dictGet_insert_self, specRegisterRecord,
      entityOverride, applyRegisterOv_empty, applyRegisterOv]

/-- C9: `unregister_object` is idempotent and total — a second call on the
same name, or a call on a never-registered name, raises nothing and leaves
the state unchanged — and the round trip `register_object` →
`unregister_object` → `get_physics_params` returns `None`, as does
`get_physics_params` on any unknown name. -/
theorem unregister_idempotent_roundtrip (s : EngineState) (n : String)
    (e : Entity) (pOv : Option RegisterParams)
    (hn : dictGet s.objects n = none) (hp : dictGet s.physics_params n = none) :
    (∀ s' : EngineState,
      unregisterObject (unregisterObject s' n) n = unregisterObject s' n)
    ∧ unregisterObject s n = s
    ∧ getPhysicsParams (unregisterObject (registerObject s e pOv) e.name) e.name
        = none
    ∧ getPhysicsParams s n = none := by
  refine ⟨fun s' => ?_, ?_, ?_, hp⟩
  · simp [unregisterObject, dictErase_idem]
  · cases s with
    | mk o p g t =>
      simp only [unregisterObject]
      simp_all [dictErase_of_get_none]
  · simp [getPhysicsParams, unregisterObject, dictGet_erase_self]

/-- Closed witness for C9 at a concrete engine state and name. -/
theorem unregister_idempotent_roundtrip_witness :
    dictGet initState.objects "ghost" = none
    ∧ ((∀ s' : EngineState,
        unregisterObject (unregisterObject s' "ghost") "ghost"
          = unregisterObject s' "ghost")
      ∧ unregisterObject initState "ghost" = initState
      ∧ getPhysicsParams
          (unregisterObject (registerObject initState ballEntity none)
            ballEntity.name) ballEntity.name = none
      ∧ getPhysicsParams initState "ghost" = none) :=
  ⟨rfl, unregister_idempotent_roundtrip initState "ghost" ballEntity none rfl rfl⟩

/-- C10: in every state reachable through the engine's API, the objects
dict and the physics-params dict hold exactly the same names, so every
object visited by the collision pass has a parameter record and the
`physics_params[name]` lookups in `_check_collision`/`_handle_collision`
cannot miss. -/
theorem registration_invariant (s : EngineState) (h : Reachable s) :
    s.objects.map Prod.fst = s.physics_params.map Prod.fst
    ∧ ∀ (n : String) (e : Entity), dictGet s.objects n = some e →
        ∃ p, dictGet s.physics_params n = some p := by
  have key : s.objects.map Prod.fst = s.physics_params.map Prod.fst := by
    induction h with
    | init => rfl
    | register e pOv hs ih =>
      simp [registerObject, dictInsert_keys, ih]
    | unregister n hs ih =>
      simp [unregisterObject, dictErase_keys, ih]
    | setParams n o hs ih =>
      rw [setPhysicsParams]
      split
      · simpa [dictModify_keys] using ih
      · exact ih
    | step dt hs ih =>
      rw [(update_keys dt _).1, (update_keys dt _).2, ih]
  refine ⟨key, fun n e he => ?_⟩
  have h1 : n ∈ s.objects.map Prod.fst :=
    (dictGet_isSome_iff _ _).mp (by simp [he])
  rw [key] at h1
  exact Option.isSome_iff_exists.mp ((dictGet_isSome_iff _ _).mpr h1)

theorem Vec3.add_x (a b : Vec3) : (a + b).x = a.x + b.x := rfl

theorem Vec3.add_y (a b : Vec3) : (a + b).y = a.y + b.y := rfl

theorem Vec3.add_z (a b : Vec3) : (a + b).z = a.z + b.z := rfl

theorem Vec3.sub_x (a b : Vec3) : (a - b).x = a.x - b.x := rfl

theorem Vec3.sub_y (a b : Vec3) : (a - b).y = a.y - b.y := rfl

theorem Vec3.sub_z (a b : Vec3) : (a - b).z = a.z - b.z := rfl

theorem Vec3.smul_x (k : ℝ) (v : Vec3) : (k • v).x = k * v.x := rfl

theorem Vec3.smul_y (k : ℝ) (v : Vec3) : (k • v).y = k * v.y := rfl

theorem Vec3.smul_z (k : ℝ) (v : Vec3) : (k • v).z = k * v.z := rfl

attribute [simp] Vec3.add_x Vec3.add_y Vec3.add_z Vec3.sub_x Vec3.sub_y
  Vec3.sub_z Vec3.smul_x Vec3.smul_y Vec3.smul_z

theorem sqrt_four : Real.sqrt 4 = 2 := by
  rw [show (4 : ℝ) = 2 ^ 2 by norm_num, Real.sqrt_sq (by norm_num : (0 : ℝ) ≤ 2)]

/-- The body of `Sphere3D.rayIntersect` with its let-bindings expanded. -/
theorem rayIntersect_def (sp : Sphere3D) (o d : Vec3) :
    sp.rayIntersect o d =
      (if (2 * dot (o - sp.position) d) * (2 * dot (o - sp.position) d)
          - 4 * dot d d * (dot (o - sp.position) (o - sp.position)
            - sp.scaledRadius * sp.scaledRadius) < 0 then none
      else if (-(2 * dot (o - sp.position) d)
            - Real.sqrt ((2 * dot (o - sp.position) d) * (2 * dot (o - sp.position) d)
              - 4 * dot d d * (dot (o - sp.position) (o - sp.position)
                - sp.scaledRadius * sp.scaledRadius))) / (2 * dot d d) > 0 then
        some ((-(2 * dot (o - sp.position) d)
            - Real.sqrt ((2 * dot (o - sp.position) d) * (2 * dot (o - sp.position) d)
              - 4 * dot d d * (dot (o - sp.position) (o - sp.position)
                - sp.scaledRadius * sp.scaledRadius))) / (2 * dot d d))
      else none) := rfl

/-- Hitting the sphere at parameter `t` is a root of the quadratic
`a t² + b t + c = 0` that `ray_intersect` sets up. -/
theorem hitAt_iff_quadratic (sp : Sphere3D) (o d : Vec3) (u : ℝ) :
    sp.hitAt o d u ↔
      dot d d * (u * u) + (2 * dot (o - sp.position) d) * u
        + (dot (o - sp.position) (o - sp.position)
          - sp.scaledRadius * sp.scaledRadius) = 0 := by
  unfold Sphere3D.hitAt
  simp only [dot, Vec3.add_x, Vec3.add_y, Vec3.add_z, Vec3.sub_x, Vec3.sub_y,
    Vec3.sub_z, Vec3.smul_x, Vec3.smul_y, Vec3.smul_z]
  constructor <;> intro h <;> linear_combination h

/-- C3 counterexample: the claim says `ray_intersect` returns `None`
exactly when the discriminant is negative or both roots are non-positive.
For a ray starting at the centre of the unit sphere (direction `(0,0,1)`)
the roots are `-1` and `1`: the discriminant is non-negative and a
positive root exists, so the claim demands a hit — but the code tests only
the smaller root `-1` and returns `None`. -/
theorem ray_intersect_inside_counterexample :
    unitSphere.rayIntersect ⟨0, 0, 0⟩ ⟨0, 0, 1⟩ = none
    ∧ unitSphere.hitAt ⟨0, 0, 0⟩ ⟨0, 0, 1⟩ 1 ∧ (0 : ℝ) < 1
    ∧ ¬((2 * dot ((⟨0, 0, 0⟩ : Vec3) - unitSphere.position) ⟨0, 0, 1⟩)
          * (2 * dot ((⟨0, 0, 0⟩ : Vec3) - unitSphere.position) ⟨0, 0, 1⟩)
        - 4 * dot (⟨0, 0, 1⟩ : Vec3) ⟨0, 0, 1⟩
          * (dot ((⟨0, 0, 0⟩ : Vec3) - unitSphere.position)
              ((⟨0, 0, 0⟩ : Vec3) - unitSphere.position)
            - unitSphere.scaledRadius * unitSphere.scaledRadius) < 0) := by
  refine ⟨?_, ?_, one_pos, ?_⟩
  · rw [rayIntersect_def]
    norm_num [dot, unitSphere, Sphere3D.scaledRadius, max3, sqrt_four]
  · unfold Sphere3D.hitAt
    norm_num [dot, unitSphere, Sphere3D.scaledRadius, max3]
  · norm_num [dot, unitSphere, Sphere3D.scaledRadius, max3]

/-- C3 (amended): for a non-degenerate direction, `Sphere3D.ray_intersect`
solves the quadratic `|O + tD - C|² = r²` and returns the *least real
root when that root is positive*; it returns `None` exactly when the
discriminant is negative or the smaller root is non-positive — so, unlike
the original claim, it also returns `None` when only the larger root is
positive (origin inside the sphere).  The two concrete examples of the
claim hold: distance 4 for the head-on ray and `None` for the miss. -/
theorem ray_intersect_least_positive_root :
    (∀ (sp : Sphere3D) (o d : Vec3), 0 < dot d d →
      ∀ t : ℝ, sp.rayIntersect o d = some t ↔
        (sp.hitAt o d t ∧ 0 < t ∧ ∀ u : ℝ, sp.hitAt o d u → t ≤ u))
    ∧ unitSphere.rayIntersect ⟨0, 0, 5⟩ ⟨0, 0, -1⟩ = some 4
    ∧ unitSphere.rayIntersect ⟨0, 0, 5⟩ ⟨1, 0, 0⟩ = none := by
  refine ⟨?_, ?_, ?_⟩
  · intro sp o d hd t
    have ha : dot d d ≠ 0 := ne_of_gt hd
    set b := 2 * dot (o - sp.position) d with hbdef
    set cc := dot (o - sp.position) (o - sp.position)
      - sp.scaledRadius * sp.scaledRadius with hccdef
    have hquad : ∀ u : ℝ, sp.hitAt o d u ↔ dot d d * (u * u) + b * u + cc = 0 :=
      fun u => hitAt_iff_quadratic sp o d u
    rw [rayIntersect_def]
    by_cases hdisc : b * b - 4 * dot d d * cc < 0
    · rw [if_pos hdisc]
      constructor
      · intro h; exact absurd h (by simp)
      · rintro ⟨hhit, -, -⟩
        exfalso
        refine quadratic_ne_zero_of_discrim_ne_sq (a := dot d d) (b := b) (c := cc)
          (fun s => ?_) t ((hquad t).mp hhit)
        have hds : discrim (dot d d) b cc = b * b - 4 * dot d d * cc := by
          rw [discrim]; ring
        rw [hds]
        intro hs
        nlinarith [sq_nonneg s]
    · push_neg at hdisc
      rw [if_neg (not_lt.mpr hdisc)]
      set sq := Real.sqrt (b * b - 4 * dot d d * cc) with hsqdef
      have hsq0 : 0 ≤ sq := Real.sqrt_nonneg _
      have hds : discrim (dot d d) b cc = sq * sq := by
        rw [discrim, Real.mul_self_sqrt hdisc]; ring
      have hroots : ∀ x : ℝ, dot d d * (x * x) + b * x + cc = 0 ↔
          x = (-b + sq) / (2 * dot d d) ∨ x = (-b - sq) / (2 * dot d d) :=
        fun x => quadratic_eq_zero_iff ha hds x
      have h2a : (0 : ℝ) < 2 * dot d d := by linarith
      have hle : (-b - sq) / (2 * dot d d) ≤ (-b + sq) / (2 * dot d d) :=
        (div_le_div_iff_of_pos_right h2a).mpr (by linarith)
      have hMroot : sp.hitAt o d ((-b - sq) / (2 * dot d d)) :=
        (hquad _).mpr ((hroots _).mpr (Or.inr rfl))
      by_cases hpos : (-b - sq) / (2 * dot d d) > 0
      · rw [if_pos hpos]
        constructor
        · intro h
          have ht : t = (-b - sq) / (2 * dot d d) := (Option.some_inj.mp h).symm
          subst ht
          refine ⟨hMroot, hpos, fun u hu => ?_⟩
          rcases (hroots u).mp ((hquad u).mp hu) with h | h <;> rw [h]
          · exact hle
        · rintro ⟨hhit, htpos, hmin⟩
          have htM : t ≤ (-b - sq) / (2 * dot d d) := hmin _ hMroot
          rcases (hroots t).mp ((hquad t).mp hhit) with h | h
          · have : t = (-b - sq) / (2 * dot d d) :=
              le_antisymm htM (by rw [h]; exact hle)
            rw [this]
          · rw [h]
      · rw [if_neg hpos]
        push_neg at hpos
        constructor
        · intro h; exact absurd h (by simp)
        · rintro ⟨hhit, htpos, hmin⟩
          have htM : t ≤ (-b - sq) / (2 * dot d d) := hmin _ hMroot
          exact absurd htpos (by linarith)
  · rw [rayIntersect_def]
    norm_num [dot, unitSphere, Sphere3D.scaledRadius, max3, sqrt_four]
  · rw [rayIntersect_def]
    norm_num [dot, unitSphere, Sphere3D.scaledRadius, max3]

/-- Closed witness for the amended C3 at the claim's own concrete ray. -/
theorem ray_intersect_least_positive_root_witness :
    0 < dot ⟨0, 0, -1⟩ ⟨0, 0, -1⟩
    ∧ ∀ t : ℝ, unitSphere.rayIntersect ⟨0, 0, 5⟩ ⟨0, 0, -1⟩ = some t ↔
        (unitSphere.hitAt ⟨0, 0, 5⟩ ⟨0, 0, -1⟩ t ∧ 0 < t
          ∧ ∀ u : ℝ, unitSphere.hitAt ⟨0, 0, 5⟩ ⟨0, 0, -1⟩ u → t ≤ u) :=
  ⟨by norm_num [dot],
    ray_intersect_least_positive_root.1 unitSphere ⟨0, 0, 5⟩ ⟨0, 0, -1⟩
      (by norm_num [dot])⟩

theorem writePos_none (s : EngineState) (n : String) : writePos s n none = s := rfl

theorem writeVel_none (s : EngineState) (n : String) : writeVel s n none = s := rfl

theorem writePos_params (s : EngineState) (n : String) (q : Option Vec3) :
    (writePos s n q).physics_params = s.physics_params := by
  cases q <;> rfl

theorem velAt_writePos (s : EngineState) (n : String) (q : Option Vec3) (m : String) :
    velAt (writePos s n q) m = velAt s m := by
  cases q <;> rfl

theorem velAt_writeVel_self (s : EngineState) (n : String) (w : Vec3) (p : PhysParams)
    (hp : dictGet s.physics_params n = some p) :
    velAt (writeVel s n (some w)) n = some w := by
  simp [writeVel, velAt, dictGet_modify_self _ _ _ _ hp]

theorem velAt_writeVel_ne (s : EngineState) (n : String) (w : Option Vec3)
    (m : String) (h : n ≠ m) : velAt (writeVel s n w) m = velAt s m := by
  cases w <;> simp [writeVel, velAt, dictGet_modify_ne _ _ _ _ h]

/-- C7 counterexample: the claim says a pair collides if and only if not
both static, both enabled, and the penetration is at least 1 % of the
summed radii.  With two coincident zero-radius entities all of that holds
(penetration `0 ≥ 0`), yet `_check_collision` returns `False`, because
after the dead-zone test it still requires `distance < sum` strictly. -/
theorem check_collision_zero_radius_counterexample :
    checkCollision zeroRadiusState "a" "b" = false
    ∧ (dictGet zeroRadiusState.physics_params "a").map PhysParams.is_static
        = some false
    ∧ (dictGet zeroRadiusState.physics_params "b").map PhysParams.is_static
        = some false
    ∧ (dictGet zeroRadiusState.physics_params "a").map PhysParams.enabled
        = some true
    ∧ (dictGet zeroRadiusState.physics_params "b").map PhysParams.enabled
        = some true
    ∧ ((pointEntity "a").boundingRadius + (pointEntity "b").boundingRadius)
        * (1 / 100)
      ≤ ((pointEntity "a").boundingRadius + (pointEntity "b").boundingRadius)
        - Real.sqrt (dist2 (pointEntity "a").position (pointEntity "b").position) := by
  refine ⟨?_, ?_, ?_, ?_, ?_, ?_⟩
  · simp [checkCollision, zeroRadiusState, registerObject, initState, dictInsert,
      dictGet, pointEntity, computedDefaults, dist2]
  · simp [zeroRadiusState, registerObject, initState, dictInsert, dictGet,
      computedDefaults, pointEntity]
  · simp [zeroRadiusState, registerObject, initState, dictInsert, dictGet,
      computedDefaults, pointEntity]
  · simp [zeroRadiusState, registerObject, initState, dictInsert, dictGet,
      computedDefaults, pointEntity]
  · simp [zeroRadiusState, registerObject, initState, dictInsert, dictGet,
      computedDefaults, pointEntity]
  · simp [pointEntity, dist2]

/-- C7 (amended): for any registered pair, `_check_collision` reports a
collision iff not both entities are static, both are enabled, the
penetration (`sumRadii - distance`) is at least 1 % of `sumRadii`, *and*
the distance is strictly below `sumRadii`; whenever `sumRadii` is
positive the last condition is implied by the dead-zone condition and the
claim's original three-way characterisation is exact — the two differ only
in the degenerate case of two coincident zero-radius colliders. -/
theorem check_collision_iff (s : EngineState) (n1 n2 : String)
    (o1 o2 : Entity) (p1 p2 : PhysParams)
    (h1 : dictGet s.objects n1 = some o1) (h2 : dictGet s.objects n2 = some o2)
    (h3 : dictGet s.physics_params n1 = some p1)
    (h4 : dictGet s.physics_params n2 = some p2) :
    (checkCollision s n1 n2 = true ↔
      (¬(p1.is_static = true ∧ p2.is_static = true)
        ∧ p1.enabled = true ∧ p2.enabled = true
        ∧ (o1.boundingRadius + o2.boundingRadius) * (1 / 100)
            ≤ (o1.boundingRadius + o2.boundingRadius)
              - Real.sqrt (dist2 o1.position o2.position)
        ∧ Real.sqrt (dist2 o1.position o2.position)
            < o1.boundingRadius + o2.boundingRadius))
    ∧ (0 < o1.boundingRadius + o2.boundingRadius →
      (checkCollision s n1 n2 = true ↔
        (¬(p1.is_static = true ∧ p2.is_static = true)
          ∧ p1.enabled = true ∧ p2.enabled = true
          ∧ (o1.boundingRadius + o2.boundingRadius) * (1 / 100)
              ≤ (o1.boundingRadius + o2.boundingRadius)
                - Real.sqrt (dist2 o1.position o2.position)))) := by
  have hmain : checkCollision s n1 n2 = true ↔
      (¬(p1.is_static = true ∧ p2.is_static = true)
        ∧ p1.enabled = true ∧ p2.enabled = true
        ∧ (o1.boundingRadius + o2.boundingRadius) * (1 / 100)
            ≤ (o1.boundingRadius + o2.boundingRadius)
              - Real.sqrt (dist2 o1.position o2.position)
        ∧ Real.sqrt (dist2 o1.position o2.position)
            < o1.boundingRadius + o2.boundingRadius) := by
    unfold checkCollision
    rw [h1, h2, h3, h4]
    dsimp only
    split_ifs with hab hen hpen
    · simp only [Bool.and_eq_true] at hab
      simp [hab]
    · simp only [Bool.not_eq_eq_eq_not, Bool.not_true, Bool.and_eq_false_iff] at hen
      constructor
      · intro h; exact absurd h (by simp)
      · rintro ⟨-, he1, he2, -⟩
        rcases hen with h | h <;> simp_all
    · constructor
      · intro h; exact absurd h (by simp)
      · rintro ⟨-, -, -, hc, -⟩
        linarith
    · rw [decide_eq_true_eq]
      constructor
      · intro hdist
        refine ⟨?_, ?_, ?_, by linarith, hdist⟩
        · intro hb
          exact hab (by simp [hb.1, hb.2])
        · by_contra h
          exact hen (by simp [Bool.eq_false_iff.mpr h])
        · by_contra h
          exact hen (by simp [Bool.eq_false_iff.mpr h])
      · rintro ⟨-, -, -, -, hdist⟩
        exact hdist
  refine ⟨hmain, fun hsum => ?_⟩
  rw [hmain]
  constructor
  · rintro ⟨hq, hb, hc, hd, -⟩
    exact ⟨hq, hb, hc, hd⟩
  · rintro ⟨hq, hb, hc, hd⟩
    exact ⟨hq, hb, hc, hd, by linarith⟩

/-- Closed witness for the amended C7, at the zero-radius pair. -/
theorem check_collision_iff_witness :
    dictGet zeroRadiusState.objects "a" = some (pointEntity "a")
    ∧ ((checkCollision zeroRadiusState "a" "b" = true ↔
        (¬((computedDefaults initState (pointEntity "a")).is_static = true
            ∧ (computedDefaults (registerObject initState (pointEntity "a") none)
                (pointEntity "b")).is_static = true)
          ∧ (computedDefaults initState (pointEntity "a")).enabled = true
          ∧ (computedDefaults (registerObject initState (pointEntity "a") none)
              (pointEntity "b")).enabled = true
          ∧ ((pointEntity "a").boundingRadius + (pointEntity "b").boundingRadius)
              * (1 / 100)
            ≤ ((pointEntity "a").boundingRadius + (pointEntity "b").boundingRadius)
              - Real.sqrt (dist2 (pointEntity "a").position
                  (pointEntity "b").position)
          ∧ Real.sqrt (dist2 (pointEntity "a").position (pointEntity "b").position)
            < (pointEntity "a").boundingRadius + (pointEntity "b").boundingRadius))
      ∧ (0 < (pointEntity "a").boundingRadius + (pointEntity "b").boundingRadius →
        (checkCollision zeroRadiusState "a" "b" = true ↔
          (¬((computedDefaults initState (pointEntity "a")).is_static = true
              ∧ (computedDefaults (registerObject initState (pointEntity "a") none)
                  (pointEntity "b")).is_static = true)
            ∧ (computedDefaults initState (pointEntity "a")).enabled = true
            ∧ (computedDefaults (registerObject initState (pointEntity "a") none)
                (pointEntity "b")).enabled = true
            ∧ ((pointEntity "a").boundingRadius + (pointEntity "b").boundingRadius)
                * (1 / 100)
              ≤ ((pointEntity "a").boundingRadius
                  + (pointEntity "b").boundingRadius)
                - Real.sqrt (dist2 (pointEntity "a").position
                    (pointEntity "b").position))))) :=
  ⟨by simp [zeroRadiusState, registerObject, initState, dictInsert, dictGet,
      pointEntity],
    check_collision_iff zeroRadiusState "a" "b" (pointEntity "a") (pointEntity "b")
      (computedDefaults initState (pointEntity "a"))
      (computedDefaults (registerObject initState (pointEntity "a") none)
        (pointEntity "b"))
      (by simp [zeroRadiusState, registerObject, initState, dictInsert, dictGet,
          pointEntity])
      (by simp [zeroRadiusState, registerObject, initState, dictInsert, dictGet,
          pointEntity])
      (by simp [zeroRadiusState, registerObject, initState, dictInsert, dictGet,
          pointEntity])
      (by simp [zeroRadiusState, registerObject, initState, dictInsert, dictGet,
          pointEntity])⟩

theorem Vec3.ext3 {a b : Vec3} (hx : a.x = b.x) (hy : a.y = b.y)
    (hz : a.z = b.z) : a = b := by
  cases a; cases b; simp_all

/-- The code's `normal_velocity` is the relative velocity projected on the
normalised direction vector. -/
theorem normalVelocity_eq (o1 o2 : Entity) (p1 p2 : PhysParams) :
    normalVelocity o1 o2 p1 p2
      = dot (p1.velocity - p2.velocity)
          ((1 / collisionLen o1 o2) • collisionDir o1 o2) := by
  simp only [normalVelocity, collisionNormal, dot, Vec3.sub_x, Vec3.sub_y,
    Vec3.sub_z, Vec3.smul_x, Vec3.smul_y, Vec3.smul_z]
  ring

/-- The code's impulse magnitude written with the claim's case split. -/
theorem impulseJ_eq (o1 o2 : Entity) (p1 p2 : PhysParams) :
    impulseJ o1 o2 p1 p2 =
      (if p1.is_static = false ∧ p2.is_static = false then
        -(1 + min p1.restitution p2.restitution * (6 / 5))
          * dot (p1.velocity - p2.velocity)
            ((1 / collisionLen o1 o2) • collisionDir o1 o2)
          / (1 / p1.mass + 1 / p2.mass)
      else if p1.is_static = true then
        -(1 + min p1.restitution p2.restitution * (6 / 5))
          * dot (p1.velocity - p2.velocity)
            ((1 / collisionLen o1 o2) • collisionDir o1 o2) * p2.mass
      else
        -(1 + min p1.restitution p2.restitution * (6 / 5))
          * dot (p1.velocity - p2.velocity)
            ((1 / collisionLen o1 o2) • collisionDir o1 o2) * p1.mass) := by
  unfold impulseJ
  cases hq1 : p1.is_static <;> cases hq2 : p2.is_static <;>
    simp [hq1, hq2, normalVelocity_eq]

/-- The code's per-component impulse write on entity 1 equals the claim's
vector form. -/
theorem impulseV1_eq (o1 o2 : Entity) (p1 p2 : PhysParams) :
    impulseV1 o1 o2 p1 p2
      = p1.velocity + (impulseJ o1 o2 p1 p2 / p1.mass)
          • ((1 / collisionLen o1 o2) • collisionDir o1 o2) := by
  refine Vec3.ext3 ?_ ?_ ?_ <;>
    simp only [impulseV1, collisionNormal, Vec3.add_x, Vec3.add_y, Vec3.add_z,
      Vec3.smul_x, Vec3.smul_y, Vec3.smul_z] <;> ring

/-- The code's per-component impulse write on entity 2 equals the claim's
vector form. -/
theorem impulseV2_eq (o1 o2 : Entity) (p1 p2 : PhysParams) :
    impulseV2 o1 o2 p1 p2
      = p2.velocity - (impulseJ o1 o2 p1 p2 / p2.mass)
          • ((1 / collisionLen o1 o2) • collisionDir o1 o2) := by
  refine Vec3.ext3 ?_ ?_ ?_ <;>
    simp only [impulseV2, collisionNormal, Vec3.sub_x, Vec3.sub_y, Vec3.sub_z,
      Vec3.smul_x, Vec3.smul_y, Vec3.smul_z] <;> ring

/-- `_handle_collision` on a registered pair, with the four lookups
resolved: the computed outcome applied by the four write-backs. -/
theorem handleCollision_eq (s : EngineState) (n1 n2 : String)
    (o1 o2 : Entity) (p1 p2 : PhysParams)
    (h1 : dictGet s.objects n1 = some o1) (h2 : dictGet s.objects n2 = some o2)
    (h3 : dictGet s.physics_params n1 = some p1)
    (h4 : dictGet s.physics_params n2 = some p2) :
    handleCollision s n1 n2 =
      writeVel (writeVel (writePos (writePos s n1 (pairOutcome o1 o2 p1 p2).pos1)
            n2 (pairOutcome o1 o2 p1 p2).pos2)
          n1 (pairOutcome o1 o2 p1 p2).vel1)
        n2 (pairOutcome o1 o2 p1 p2).vel2 := by
  unfold handleCollision
  rw [h1, h2, h3, h4]

/-- C6: for every colliding pair that reaches impulse resolution (not both
static, distinct centres, penetration at least 0.001): if the relative
velocity projected on the unit normal from entity 1 to entity 2 is
positive (separating) neither velocity changes; otherwise the impulse
`j = -(1+e) * v_rel_normal` — divided by `1/m1 + 1/m2` when both sides are
dynamic, multiplied by the single dynamic side's mass when the other is
static, with `e = min(rest1, rest2) * 1.2` — is added as `(j/m1) * normal`
to entity 1's velocity and subtracted as `(j/m2) * normal` from entity
2's, each only when that side is dynamic. -/
theorem handle_collision_impulse (s : EngineState) (n1 n2 : String)
    (o1 o2 : Entity) (p1 p2 : PhysParams)
    (h1 : dictGet s.objects n1 = some o1) (h2 : dictGet s.objects n2 = some o2)
    (h3 : dictGet s.physics_params n1 = some p1)
    (h4 : dictGet s.physics_params n2 = some p2) (hne : n1 ≠ n2)
    (hst : ¬(p1.is_static = true ∧ p2.is_static = true))
    (hlen : collisionLen o1 o2 ≠ 0)
    (hpen : ¬(penDepth o1 o2 < 1 / 1000)) :
    (let nrm := (1 / collisionLen o1 o2) • collisionDir o1 o2
     let nv := dot (p1.velocity - p2.velocity) nrm
     let e := min p1.restitution p2.restitution * (6 / 5)
     let j := if p1.is_static = false ∧ p2.is_static = false then
         -(1 + e) * nv / (1 / p1.mass + 1 / p2.mass)
       else if p1.is_static = true then -(1 + e) * nv * p2.mass
       else -(1 + e) * nv * p1.mass
     (0 < nv →
       velAt (handleCollision s n1 n2) n1 = some p1.velocity
       ∧ velAt (handleCollision s n1 n2) n2 = some p2.velocity)
     ∧ (¬0 < nv →
       velAt (handleCollision s n1 n2) n1
         = some (if p1.is_static = true then p1.velocity
             else p1.velocity + (j / p1.mass) • nrm)
       ∧ velAt (handleCollision s n1 n2) n2
         = some (if p2.is_static = true then p2.velocity
             else p2.velocity - (j / p2.mass) • nrm))) := by
  dsimp only
  rw [handleCollision_eq s n1 n2 o1 o2 p1 p2 h1 h2 h3 h4]
  have hb : ¬((p1.is_static && p2.is_static) = true) := by
    cases hq1 : p1.is_static <;> cases hq2 : p2.is_static <;> simp_all
  have h3i : dictGet (writePos (writePos s n1 (pairOutcome o1 o2 p1 p2).pos1)
      n2 (pairOutcome o1 o2 p1 p2).pos2).physics_params n1 = some p1 := by
    rw [writePos_params, writePos_params]; exact h3
  have h4i : dictGet (writePos (writePos s n1 (pairOutcome o1 o2 p1 p2).pos1)
      n2 (pairOutcome o1 o2 p1 p2).pos2).physics_params n2 = some p2 := by
    rw [writePos_params, writePos_params]; exact h4
  constructor
  · intro hnv
    have hnv' : normalVelocity o1 o2 p1 p2 > 0 := by
      rw [normalVelocity_eq]; exact hnv
    have hv1 : (pairOutcome o1 o2 p1 p2).vel1 = none := by
      unfold pairOutcome
      rw [if_neg hb, if_neg hlen, if_neg hpen]
      dsimp only
      rw [if_pos hnv']
    have hv2 : (pairOutcome o1 o2 p1 p2).vel2 = none := by
      unfold pairOutcome
      rw [if_neg hb, if_neg hlen, if_neg hpen]
      dsimp only
      rw [if_pos hnv']
    rw [hv1, hv2, writeVel_none, writeVel_none]
    simp only [velAt_writePos]
    exact ⟨by simp [velAt, h3], by simp [velAt, h4]⟩
  · intro hnv
    have hnv' : ¬(normalVelocity o1 o2 p1 p2 > 0) := by
      rw [normalVelocity_eq]; exact hnv
    rcases Bool.eq_false_or_eq_true p1.is_static with hq1 | hq1 <;>
      rcases Bool.eq_false_or_eq_true p2.is_static with hq2 | hq2
    · exact absurd ⟨hq1, hq2⟩ hst
    · -- p1 static, p2 dynamic
      have hv1 : (pairOutcome o1 o2 p1 p2).vel1 = none := by
        unfold pairOutcome
        rw [if_neg hb, if_neg hlen, if_neg hpen]
        dsimp only
        rw [if_neg hnv']
        dsimp only
        rw [if_pos (show p1.is_static = true from hq1)]
      have hv2 : (pairOutcome o1 o2 p1 p2).vel2 = some (impulseV2 o1 o2 p1 p2) := by
        unfold pairOutcome
        rw [if_neg hb, if_neg hlen, if_neg hpen]
        dsimp only
        rw [if_neg hnv']
        dsimp only
        rw [if_neg (show ¬(p2.is_static = true) by simp [hq2])]
      rw [hv1, hv2, writeVel_none,
        if_pos (show p1.is_static = true from hq1),
        if_neg (show ¬(p2.is_static = true) by simp [hq2]),
        if_neg (show ¬(p1.is_static = false ∧ p2.is_static = false) by
          simp [hq1]),
        if_pos (show p1.is_static = true from hq1)]
      constructor
      · rw [velAt_writeVel_ne _ _ _ _ (Ne.symm hne)]
        simp only [velAt_writePos]
        simp [velAt, h3]
      · rw [velAt_writeVel_self _ _ _ p2 h4i, impulseV2_eq, impulseJ_eq,
          if_neg (show ¬(p1.is_static = false ∧ p2.is_static = false) by
            simp [hq1]),
          if_pos (show p1.is_static = true from hq1)]
    · -- p1 dynamic, p2 static
      have hv1 : (pairOutcome o1 o2 p1 p2).vel1 = some (impulseV1 o1 o2 p1 p2) := by
        unfold pairOutcome
        rw [if_neg hb, if_neg hlen, if_neg hpen]
        dsimp only
        rw [if_neg hnv']
        dsimp only
        rw [if_neg (show ¬(p1.is_static = true) by simp [hq1])]
      have hv2 : (pairOutcome o1 o2 p1 p2).vel2 = none := by
        unfold pairOutcome
        rw [if_neg hb, if_neg hlen, if_neg hpen]
        dsimp only
        rw [if_neg hnv']
        dsimp only
        rw [if_pos (show p2.is_static = true from hq2)]
      rw [hv1, hv2, writeVel_none,
        if_neg (show ¬(p1.is_static = true) by simp [hq1]),
        if_pos (show p2.is_static = true from hq2),
        if_neg (show ¬(p1.is_static = false ∧ p2.is_static = false) by
          simp [hq2]),
        if_neg (show ¬(p1.is_static = true) by simp [hq1])]
      constructor
      · rw [velAt_writeVel_self _ _ _ p1 h3i, impulseV1_eq, impulseJ_eq,
          if_neg (show ¬(p1.is_static = false ∧ p2.is_static = false) by
            simp [hq2]),
          if_neg (show ¬(p1.is_static = true) by simp [hq1])]
      · rw [velAt_writeVel_ne _ _ _ _ hne]
        simp only [velAt_writePos]
        simp [velAt, h4]
    · have hv1 : (pairOutcome o1 o2 p1 p2).vel1 = some (impulseV1 o1 o2 p1 p2) := by
        unfold pairOutcome
        rw [if_neg hb, if_neg hlen, if_neg hpen]
        dsimp only
        rw [if_neg hnv']
        dsimp only
        rw [if_neg (show ¬(p1.is_static = true) by simp [hq1])]
      have hv2 : (pairOutcome o1 o2 p1 p2).vel2 = some (impulseV2 o1 o2 p1 p2) := by
        unfold pairOutcome
        rw [if_neg hb, if_neg hlen, if_neg hpen]
        dsimp only
        rw [if_neg hnv']
        dsimp only
        rw [if_neg (show ¬(p2.is_static = true) by simp [hq2])]
      rw [hv1, hv2, if_neg (show ¬(p1.is_static = true) by simp [hq1]),
        if_neg (show ¬(p2.is_static = true) by simp [hq2]),
        if_pos (show p1.is_static = false ∧ p2.is_static = false from ⟨hq1, hq2⟩)]
      constructor
      · rw [velAt_writeVel_ne _ _ _ _ (Ne.symm hne),
          velAt_writeVel_self _ _ _ p1 h3i, impulseV1_eq, impulseJ_eq,
          if_pos (show p1.is_static = false ∧ p2.is_static = false from ⟨hq1, hq2⟩)]
      · rw [velAt_writeVel_self _ _ _ p2 (by
            simp only [writeVel]
            rw [dictGet_modify_ne _ _ _ _ hne]
            exact h4i), impulseV2_eq, impulseJ_eq,
          if_pos (show p1.is_static = false ∧ p2.is_static = false from ⟨hq1, hq2⟩)]

/-- Closed witness for C6 at the overlapping pair: centre distance 1,
penetration 1. -/
theorem handle_collision_impulse_witness :
    ("a" : String) ≠ "b"
    ∧ collisionLen sphereEntA sphereEntB ≠ 0
    ∧ ¬(penDepth sphereEntA sphereEntB < 1 / 1000)
    ∧ (let p1 := computedDefaults initState sphereEntA
       let p2 := computedDefaults (registerObject initState sphereEntA none)
         sphereEntB
       let nrm := (1 / collisionLen sphereEntA sphereEntB)
         • collisionDir sphereEntA sphereEntB
       let nv := dot (p1.velocity - p2.velocity) nrm
       let e := min p1.restitution p2.restitution * (6 / 5)
       let j := if p1.is_static = false ∧ p2.is_static = false then
           -(1 + e) * nv / (1 / p1.mass + 1 / p2.mass)
         else if p1.is_static = true then -(1 + e) * nv * p2.mass
         else -(1 + e) * nv * p1.mass
       (0 < nv →
         velAt (handleCollision collideState "a" "b") "a" = some p1.velocity
         ∧ velAt (handleCollision collideState "a" "b") "b" = some p2.velocity)
       ∧ (¬0 < nv →
         velAt (handleCollision collideState "a" "b") "a"
           = some (if p1.is_static = true then p1.velocity
               else p1.velocity + (j / p1.mass) • nrm)
         ∧ velAt (handleCollision collideState "a" "b") "b"
           = some (if p2.is_static = true then p2.velocity
               else p2.velocity - (j / p2.mass) • nrm))) := by
  have hlen : collisionLen sphereEntA sphereEntB ≠ 0 := by
    simp only [collisionLen, collisionDir, dot, sphereEntA, sphereEntB,
      Vec3.sub_x, Vec3.sub_y, Vec3.sub_z]
    norm_num
  have hpen : ¬(penDepth sphereEntA sphereEntB < 1 / 1000) := by
    simp only [penDepth, collisionLen, collisionDir, dot, sphereEntA, sphereEntB,
      Vec3.sub_x, Vec3.sub_y, Vec3.sub_z]
    norm_num
  refine ⟨by decide, hlen, hpen, ?_⟩
  exact handle_collision_impulse collideState "a" "b" sphereEntA sphereEntB
    (computedDefaults initState sphereEntA)
    (computedDefaults (registerObject initState sphereEntA none) sphereEntB)
    (by simp [collideState, registerObject, initState, dictInsert, dictGet,
      sphereEntA, sphereEntB])
    (by simp [collideState, registerObject, initState, dictInsert, dictGet,
      sphereEntA, sphereEntB])
    (by simp [collideState, registerObject, initState, dictInsert, dictGet,
      sphereEntA, sphereEntB])
    (by simp [collideState, registerObject, initState, dictInsert, dictGet,
      sphereEntA, sphereEntB])
    (by decide)
    (by simp [computedDefaults])
    hlen hpen

theorem dictGet_objects_writePos_ne (s : EngineState) (m : String) (q : Option Vec3)
    (n : String) (h : m ≠ n) :
    dictGet (writePos s m q).objects n = dictGet s.objects n := by
  cases q <;> simp [writePos, dictGet_modify_ne _ _ _ _ h]

theorem dictGet_params_writeVel_ne (s : EngineState) (m : String) (w : Option Vec3)
    (n : String) (h : m ≠ n) :
    dictGet (writeVel s m w).physics_params n = dictGet s.physics_params n := by
  cases w <;> simp [writeVel, dictGet_modify_ne _ _ _ _ h]

theorem writeVel_objects (s : EngineState) (m : String) (w : Option Vec3) :
    (writeVel s m w).objects = s.objects := by
  cases w <;> rfl

theorem staticAt_writePos_ne {s : EngineState} {m n : String} {pos v : Vec3}
    (q : Option Vec3) (hmn : m ≠ n) (h : StaticAt s n pos v) :
    StaticAt (writePos s m q) n pos v := by
  obtain ⟨e, p, he, hpos, hp, hstat, hvel⟩ := h
  exact ⟨e, p, by rw [dictGet_objects_writePos_ne _ _ _ _ hmn]; exact he, hpos,
    by rw [writePos_params]; exact hp, hstat, hvel⟩

theorem staticAt_writeVel_ne {s : EngineState} {m n : String} {pos v : Vec3}
    (w : Option Vec3) (hmn : m ≠ n) (h : StaticAt s n pos v) :
    StaticAt (writeVel s m w) n pos v := by
  obtain ⟨e, p, he, hpos, hp, hstat, hvel⟩ := h
  exact ⟨e, p, by rw [writeVel_objects]; exact he, hpos,
    by rw [dictGet_params_writeVel_ne _ _ _ _ hmn]; exact hp, hstat, hvel⟩

/-- A static side of a collision absorbs no positional correction and no
impulse: its two outcome fields are `none`. -/
theorem pairOutcome_static1 (o1 o2 : Entity) (p1 p2 : PhysParams)
    (h : p1.is_static = true) :
    (pairOutcome o1 o2 p1 p2).pos1 = none
    ∧ (pairOutcome o1 o2 p1 p2).vel1 = none := by
  unfold pairOutcome
  dsimp only
  split_ifs <;> simp_all

/-- Mirror image of `pairOutcome_static1` for the second entity. -/
theorem pairOutcome_static2 (o1 o2 : Entity) (p1 p2 : PhysParams)
    (h : p2.is_static = true) :
    (pairOutcome o1 o2 p1 p2).pos2 = none
    ∧ (pairOutcome o1 o2 p1 p2).vel2 = none := by
  unfold pairOutcome
  dsimp only
  split_ifs <;> simp_all

theorem integrateOne_staticAt (dt : ℝ) (s : EngineState) (m n : String)
    (pos v : Vec3) (h : StaticAt s n pos v) :
    StaticAt (integrateOne dt s m) n pos v := by
  obtain ⟨e, p, he, hpos, hp, hstat, hvel⟩ := h
  by_cases hmn : m = n
  · subst hmn
    unfold integrateOne
    simp only [he, hp]
    by_cases hen : p.enabled
    · rw [if_pos hen]
      try dsimp only
      split_ifs
      exact ⟨e, _, he, hpos, dictGet_modify_self _ _ _ p hp, hstat, hvel⟩
    · rw [if_neg hen]
      exact ⟨e, p, he, hpos, hp, hstat, hvel⟩
  · unfold integrateOne
    rcases hgo : dictGet s.objects m with _ | em <;>
      rcases hgp : dictGet s.physics_params m with _ | pm <;>
      [skip; skip; skip; skip] <;>
      first
      | exact ⟨e, p, he, hpos, hp, hstat, hvel⟩
      | (dsimp only
         split_ifs <;>
           exact ⟨e, p, by simp [dictGet_modify_ne _ _ _ _ hmn, he], hpos,
             by simp [dictGet_modify_ne _ _ _ _ hmn, hp], hstat, hvel⟩)

theorem handleCollision_staticAt (s : EngineState) (a b n : String)
    (pos v : Vec3) (h : StaticAt s n pos v) :
    StaticAt (handleCollision s a b) n pos v := by
  have hcopy := h
  obtain ⟨e, p, he, hpos, hp, hstat, hvel⟩ := h
  unfold handleCollision
  rcases hgo1 : dictGet s.objects a with _ | o1 <;>
    rcases hgo2 : dictGet s.objects b with _ | o2 <;>
    rcases hgp1 : dictGet s.physics_params a with _ | p1 <;>
    rcases hgp2 : dictGet s.physics_params b with _ | p2 <;>
    try exact ⟨e, p, he, hpos, hp, hstat, hvel⟩
  dsimp only
  by_cases han : a = n
  · subst han
    have hp1 : p1 = p := by rw [hp] at hgp1; exact (Option.some_inj.mp hgp1).symm
    have hs1 := pairOutcome_static1 o1 o2 p1 p2 (by rw [hp1]; exact hstat)
    rw [hs1.1, hs1.2, writePos_none, writeVel_none]
    by_cases hbn : b = a
    · subst hbn
      have hs2 := pairOutcome_static2 o1 o2 p1 p2 (by
        rw [hp] at hgp2
        rw [(Option.some_inj.mp hgp2).symm]
        exact hstat)
      rw [hs2.1, hs2.2, writePos_none, writeVel_none]
      exact hcopy
    · exact staticAt_writeVel_ne _ hbn (staticAt_writePos_ne _ hbn hcopy)
  · by_cases hbn : b = n
    · subst hbn
      have hp2 : p2 = p := by rw [hp] at hgp2; exact (Option.some_inj.mp hgp2).symm
      have hs2 := pairOutcome_static2 o1 o2 p1 p2 (by rw [hp2]; exact hstat)
      rw [hs2.1, hs2.2, writePos_none, writeVel_none]
      exact staticAt_writeVel_ne _ han (staticAt_writePos_ne _ han hcopy)
    · exact staticAt_writeVel_ne _ hbn (staticAt_writeVel_ne _ han
        (staticAt_writePos_ne _ hbn (staticAt_writePos_ne _ han hcopy)))

theorem foldl_integrateOne_staticAt (dt : ℝ) (ns : List String) (s : EngineState)
    (n : String) (pos v : Vec3) (h : StaticAt s n pos v) :
    StaticAt (ns.foldl (integrateOne dt) s) n pos v := by
  induction ns generalizing s with
  | nil => exact h
  | cons a t ih =>
    simp only [List.foldl_cons]
    exact ih _ (integrateOne_staticAt dt s a n pos v h)

theorem foldl_pairs_staticAt (qs : List (String × String)) (s : EngineState)
    (n : String) (pos v : Vec3) (h : StaticAt s n pos v) :
    StaticAt (qs.foldl (fun s' q =>
      if checkCollision s' q.1 q.2 then handleCollision s' q.1 q.2 else s') s)
      n pos v := by
  induction qs generalizing s with
  | nil => exact h
  | cons q t ih =>
    simp only [List.foldl_cons]
    refine ih _ ?_
    split
    · exact handleCollision_staticAt s q.1 q.2 n pos v h
    · exact h

theorem update_staticAt (dt : ℝ) (s : EngineState) (n : String) (pos v : Vec3)
    (h : StaticAt s n pos v) : StaticAt (update dt s) n pos v :=
  foldl_pairs_staticAt _ _ n pos v (foldl_integrateOne_staticAt dt _ s n pos v h)

theorem updates_staticAt (dts : List ℝ) (s : EngineState) (n : String)
    (pos v : Vec3) (h : StaticAt s n pos v) : StaticAt (updates dts s) n pos v := by
  induction dts generalizing s with
  | nil => exact h
  | cons dt t ih =>
    simp only [updates, List.foldl_cons]
    exact ih _ (update_staticAt dt s n pos v h)

/-- C4: a registered entity whose record has `is_static=True` and
`enabled=True` keeps exactly the same position (and stored velocity) across
any number of `update()` calls, whatever the gravity and the other
registered entities do: it is never integrated, absorbs no positional
correction, and receives no impulse. -/
theorem static_entities_never_move (s : EngineState) (dts : List ℝ) (n : String)
    (e : Entity) (p : PhysParams)
    (ho : dictGet s.objects n = some e) (hp : dictGet s.physics_params n = some p)
    (hs : p.is_static = true) (_he : p.enabled = true) :
    posAt (updates dts s) n = some e.position
    ∧ velAt (updates dts s) n = some p.velocity := by
  obtain ⟨e1, p1, ho1, hpos1, hp1, -, hvel1⟩ :=
    updates_staticAt dts s n e.position p.velocity ⟨e, p, ho, rfl, hp, hs, rfl⟩
  exact ⟨by simp [posAt, ho1, hpos1], by simp [velAt, hp1, hvel1]⟩

/-- Closed witness for C4: the static floor of a two-entity scene is exactly
where it started after two update ticks. -/
theorem static_entities_never_move_witness :
    (dictGet staticSceneState.physics_params "floor").map PhysParams.is_static
        = some true
    ∧ posAt (updates [1 / 10, 1 / 20] staticSceneState) "floor"
        = some floorEntity.position := by
  constructor
  · simp [staticSceneState, registerObject, initState, dictInsert, dictGet,
      computedDefaults, applyRegisterOv, floorEntity, ballEntity]
  · exact (static_entities_never_move staticSceneState [1 / 10, 1 / 20] "floor"
      floorEntity
      (applyRegisterOv (computedDefaults initState floorEntity)
        { is_static := some true })
      (by simp [staticSceneState, registerObject, initState, dictInsert, dictGet,
        floorEntity, ballEntity])
      (by simp [staticSceneState, registerObject, initState, dictInsert, dictGet,
        floorEntity, ballEntity])
      (by simp [applyRegisterOv, computedDefaults])
      (by simp [applyRegisterOv, computedDefaults])).1

/-- The `bounds` refresh `params['bounds'] = obj.update_bounds()` does not
affect the velocity computation, which reads only `velocity`,
`acceleration`, `friction` and `mass`. -/
theorem newVelocity_bounds (thr dt : ℝ) (p : PhysParams) (b : Bounds) :
    newVelocity thr dt { p with bounds := b } = newVelocity thr dt p := rfl

/-- Likewise for the whole integration step, which additionally reads only
`restitution`. -/
theorem integrateStep_bounds (thr dt : ℝ) (pos : Vec3) (p : PhysParams)
    (b : Bounds) :
    integrateStep thr dt pos { p with bounds := b }
      = integrateStep thr dt pos p := rfl

/-- One `update()` on an engine holding exactly one enabled dynamic entity:
the entity is integrated and the empty pair list leaves the collision pass
idle. -/
theorem update_single_dyn (dt : ℝ) (n : String) (e : Entity) (p : PhysParams)
    (g : Vec3) (thr : ℝ) (hen : p.enabled = true) (hst : p.is_static = false) :
    update dt ⟨[(n, e)], [(n, p)], g, thr⟩
      = ⟨[(n, { e with position := (integrateStep thr dt e.position p).1 })],
         [(n, { p with
            bounds := e.updBounds
            velocity := (integrateStep thr dt e.position p).2 })], g, thr⟩ := by
  unfold update collisionPhase integratePhase
  simp only [List.map_cons, List.map_nil, List.foldl_cons, List.foldl_nil]
  unfold integrateOne
  simp only [dictGet, if_pos rfl, hen, if_true, hst, dictModify, pairsOf,
    integrateStep_bounds]
  simp [pairsOf, hst]
  exact ⟨rfl, rfl⟩

/-- After integration the stored height is never negative: the ground-plane
clamp in `update()` forces `z` to `0` whenever the integrated position
would dip below it. -/
theorem integrateStep_z_nonneg (thr dt : ℝ) (pos : Vec3) (p : PhysParams) :
    0 ≤ (integrateStep thr dt pos p).1.z := by
  unfold integrateStep
  dsimp only
  split_ifs with h
  · exact le_refl 0
  · exact le_of_not_lt h

/-- On the tick where the integrated position would cross `z = 0`, the
height is clamped to `0` and the vertical velocity is replaced by its
negation scaled by the restitution. -/
theorem integrateStep_clamp (thr dt : ℝ) (pos : Vec3) (p : PhysParams)
    (h : pos.z + (newVelocity thr dt p).z * dt < 0) :
    (integrateStep thr dt pos p).1.z = 0
    ∧ (integrateStep thr dt pos p).2.z
        = -(newVelocity thr dt p).z * p.restitution := by
  unfold integrateStep
  dsimp only
  split_ifs
  exact ⟨rfl, rfl⟩

/-- When the integrated position stays at or above the ground, the step is
plain `position += velocity * dt` with the velocity kept. -/
theorem integrateStep_no_clamp (thr dt : ℝ) (pos : Vec3) (p : PhysParams)
    (h : ¬(pos.z + (newVelocity thr dt p).z * dt < 0)) :
    integrateStep thr dt pos p
      = (⟨pos.x + (newVelocity thr dt p).x * dt,
          pos.y + (newVelocity thr dt p).y * dt,
          pos.z + (newVelocity thr dt p).z * dt⟩, newVelocity thr dt p) := by
  unfold integrateStep
  dsimp only
  split_ifs
  rfl

theorem update_singleDynAbove (dt : ℝ) (n : String) (g : Vec3) (thr : ℝ)
    (s : EngineState) (h : SingleDynAbove n g thr s) :
    SingleDynAbove n g thr (update dt s) := by
  obtain ⟨e', p', hs, hen, hst, hz⟩ := h
  subst hs
  rw [update_single_dyn dt n e' p' g thr hen hst]
  exact ⟨_, _, rfl, hen, hst, integrateStep_z_nonneg thr dt e'.position p'⟩

theorem updates_singleDynAbove (dts : List ℝ) (n : String) (g : Vec3) (thr : ℝ)
    (s : EngineState) (h : SingleDynAbove n g thr s) :
    SingleDynAbove n g thr (updates dts s) := by
  induction dts generalizing s with
  | nil => exact h
  | cons dt t ih =>
    simp only [updates, List.foldl_cons]
    exact ih _ (update_singleDynAbove dt n g thr s h)

/-- C5: a single enabled dynamic entity starting above the ground never
reports a negative height after any number of `update()` calls, and on any
tick where the integrated position would cross `z = 0` the height is
clamped to `0` and the vertical velocity is replaced by its negation
scaled by the entity's restitution. -/
theorem ground_plane_clamp (n : String) (e : Entity) (p : PhysParams) (g : Vec3)
    (thr dt : ℝ) (dts : List ℝ)
    (hen : p.enabled = true) (hst : p.is_static = false)
    (hz : 0 < e.position.z) :
    (∃ pos1 v1,
      posAt (update dt (⟨[(n, e)], [(n, p)], g, thr⟩ : EngineState)) n = some pos1
      ∧ velAt (update dt (⟨[(n, e)], [(n, p)], g, thr⟩ : EngineState)) n = some v1
      ∧ 0 ≤ pos1.z
      ∧ (e.position.z + (newVelocity thr dt p).z * dt < 0 →
          pos1.z = 0 ∧ v1.z = -(newVelocity thr dt p).z * p.restitution))
    ∧ ∀ pos', posAt (updates dts (⟨[(n, e)], [(n, p)], g, thr⟩ : EngineState)) n
        = some pos' → 0 ≤ pos'.z := by
  constructor
  · rw [update_single_dyn dt n e p g thr hen hst]
    refine ⟨(integrateStep thr dt e.position p).1,
      (integrateStep thr dt e.position p).2, ?_, ?_,
      integrateStep_z_nonneg thr dt e.position p,
      fun hcross => integrateStep_clamp thr dt e.position p hcross⟩
    · simp [posAt, dictGet]
    · simp [velAt, dictGet]
  · intro pos' hpos'
    obtain ⟨e', p', hs, -, -, hz'⟩ := updates_singleDynAbove dts n g thr _
      ⟨e, p, rfl, hen, hst, le_of_lt hz⟩
    rw [hs] at hpos'
    simp only [posAt, dictGet, if_pos rfl, Option.map_some'] at hpos'
    rw [← Option.some_inj.mp hpos']
    exact hz'

/-- Closed witness for C5: a unit ball dropped from `z = 5` with the
default parameters. -/
theorem ground_plane_clamp_witness :
    (computedDefaults initState ballEntity).enabled = true
    ∧ (computedDefaults initState ballEntity).is_static = false
    ∧ 0 < ballEntity.position.z
    ∧ ((∃ pos1 v1,
      posAt (update (1 / 10) (⟨[("ball", ballEntity)],
        [("ball", computedDefaults initState ballEntity)], ⟨0, 0, -(981 / 100)⟩,
        1 / 100⟩ : EngineState)) "ball" = some pos1
      ∧ velAt (update (1 / 10) (⟨[("ball", ballEntity)],
        [("ball", computedDefaults initState ballEntity)], ⟨0, 0, -(981 / 100)⟩,
        1 / 100⟩ : EngineState)) "ball" = some v1
      ∧ 0 ≤ pos1.z
      ∧ (ballEntity.position.z
          + (newVelocity (1 / 100) (1 / 10)
              (computedDefaults initState ballEntity)).z * (1 / 10) < 0 →
          pos1.z = 0 ∧ v1.z = -(newVelocity (1 / 100) (1 / 10)
            (computedDefaults initState ballEntity)).z
            * (computedDefaults initState ballEntity).restitution))
    ∧ ∀ pos', posAt (updates [1 / 10, 1 / 10] (⟨[("ball", ballEntity)],
        [("ball", computedDefaults initState ballEntity)], ⟨0, 0, -(981 / 100)⟩,
        1 / 100⟩ : EngineState)) "ball" = some pos' → 0 ≤ pos'.z) :=
  ⟨rfl, rfl, by simp [ballEntity],
    ground_plane_clamp "ball" ballEntity (computedDefaults initState ballEntity)
      ⟨0, 0, -(981 / 100)⟩ (1 / 100) (1 / 10) [1 / 10, 1 / 10] rfl rfl
      (by simp [ballEntity])⟩

theorem dot_self_nonneg (v : Vec3) : 0 ≤ dot v v := by
  unfold dot
  nlinarith [mul_self_nonneg v.x, mul_self_nonneg v.y, mul_self_nonneg v.z]

theorem speedOf_nonneg (v : Vec3) : 0 ≤ speedOf v := Real.sqrt_nonneg _

/-- `sum(v*v) ** 0.5 > 0` fails only for the zero velocity. -/
theorem velocity_zero_of_speed_zero (v : Vec3) (h : ¬speedOf v > 0) :
    v = ⟨0, 0, 0⟩ := by
  have h0 : speedOf v = 0 := le_antisymm (not_lt.mp h) (speedOf_nonneg v)
  have hd : dot v v ≤ 0 := by
    by_contra hc
    push_neg at hc
    have := Real.sqrt_pos.mpr hc
    rw [speedOf] at h0
    linarith
  unfold dot at hd
  have hx : v.x * v.x = 0 := le_antisymm
    (by nlinarith [mul_self_nonneg v.y, mul_self_nonneg v.z]) (mul_self_nonneg v.x)
  have hy : v.y * v.y = 0 := le_antisymm
    (by nlinarith [mul_self_nonneg v.x, mul_self_nonneg v.z]) (mul_self_nonneg v.y)
  have hz : v.z * v.z = 0 := le_antisymm
    (by nlinarith [mul_self_nonneg v.x, mul_self_nonneg v.y]) (mul_self_nonneg v.z)
  exact Vec3.ext3 (mul_self_eq_zero.mp hx) (mul_self_eq_zero.mp hy)
    (mul_self_eq_zero.mp hz)

theorem speedOf_smul (k : ℝ) (v : Vec3) (hk : 0 ≤ k) :
    speedOf (k • v) = k * speedOf v := by
  unfold speedOf
  have h : dot (k • v) (k • v) = k ^ 2 * dot v v := by
    simp only [dot, Vec3.smul_x, Vec3.smul_y, Vec3.smul_z]
    ring
  rw [h, Real.sqrt_mul (sq_nonneg k), Real.sqrt_sq hk]

theorem speedOf_smul_le (k : ℝ) (v : Vec3) (hk0 : 0 ≤ k) (hk1 : k ≤ 1) :
    speedOf (k • v) ≤ speedOf v := by
  rw [speedOf_smul k v hk0]
  exact mul_le_of_le_one_left (speedOf_nonneg v) hk1

/-- The friction pass rescales the velocity by a factor in `[0, 1]`: each
non-zero component is decelerated against the motion with the time step
capped at `speed / deceleration`, so the direction can never flip and the
magnitude can never grow. -/
theorem applyFriction_scale (dt : ℝ) (p : PhysParams)
    (hf : 0 < p.friction) (hm : 0 < p.mass) (hdt : 0 ≤ dt) :
    ∃ k : ℝ, 0 ≤ k ∧ k ≤ 1 ∧ applyFriction dt p p.velocity = k • p.velocity := by
  unfold applyFriction
  dsimp only
  by_cases hsp : speedOf p.velocity > 0
  · rw [if_pos hsp]
    set v := p.velocity with hv
    have hsp' : 0 < speedOf v := hsp
    set fd := p.friction * (981 / 100) / p.mass with hfd
    have hfd0 : 0 < fd := div_pos (mul_pos hf (by norm_num)) hm
    set fdt := min dt (speedOf v / fd) with hfdt
    have hfdt0 : 0 ≤ fdt := le_min hdt (le_of_lt (div_pos hsp' hfd0))
    have hfdtle : fdt ≤ speedOf v / fd := min_le_right _ _
    have hmul : fd * fdt ≤ speedOf v := by
      calc fd * fdt ≤ fd * (speedOf v / fd) :=
            mul_le_mul_of_nonneg_left hfdtle (le_of_lt hfd0)
        _ = speedOf v := by field_simp
    have comp : ∀ c : ℝ, (if |c| > 0 then c + -(c / speedOf v) * fd * fdt else c)
        = (1 - fd * fdt / speedOf v) * c := by
      intro c
      by_cases hc : |c| > 0
      · rw [if_pos hc]
        field_simp
        ring
      · have hc0 : c = 0 := abs_eq_zero.mp
          (le_antisymm (not_lt.mp hc) (abs_nonneg c))
        rw [if_neg hc, hc0]
        ring
    refine ⟨1 - fd * fdt / speedOf v, ?_, ?_, ?_⟩
    · have h1 : fd * fdt / speedOf v ≤ 1 := by
        rw [div_le_one hsp']
        exact hmul
      linarith
    · have h0 : 0 ≤ fd * fdt / speedOf v :=
        div_nonneg (mul_nonneg (le_of_lt hfd0) hfdt0) (le_of_lt hsp')
      linarith
    · exact Vec3.ext3 (comp v.x) (comp v.y) (comp v.z)
  · rw [if_neg hsp]
    refine ⟨0, le_refl 0, by norm_num, ?_⟩
    rw [velocity_zero_of_speed_zero p.velocity hsp]
    exact Vec3.ext3 (by simp) (by simp) (by simp)

/-- With zero acceleration, the whole velocity pass of `update()` is a
non-negative rescaling of the previous velocity by a factor at most one,
hard-clamped to exactly zero below the engine threshold. -/
theorem newVelocity_scale (thr dt : ℝ) (p : PhysParams)
    (ha : p.acceleration = ⟨0, 0, 0⟩) (hf : 0 < p.friction) (hm : 0 < p.mass)
    (hdt : 0 ≤ dt) :
    ∃ k : ℝ, 0 ≤ k ∧ k ≤ 1 ∧ newVelocity thr dt p = k • p.velocity
      ∧ (speedOf (newVelocity thr dt p) < thr →
          newVelocity thr dt p = ⟨0, 0, 0⟩) := by
  obtain ⟨k, hk0, hk1, hke⟩ := applyFriction_scale dt p hf hm hdt
  have hstep : (⟨(k • p.velocity).x + p.acceleration.x * dt,
      (k • p.velocity).y + p.acceleration.y * dt,
      (k • p.velocity).z + p.acceleration.z * dt⟩ : Vec3) = k • p.velocity := by
    rw [ha]
    exact Vec3.ext3 (by simp) (by simp) (by simp)
  unfold newVelocity
  dsimp only
  rw [hke, hstep]
  by_cases hclamp : speedOf (k • p.velocity) < thr
  · rw [if_pos hclamp]
    exact ⟨0, le_refl 0, by norm_num,
      Vec3.ext3 (by simp) (by simp) (by simp), fun _ => rfl⟩
  · rw [if_neg hclamp]
    exact ⟨k, hk0, hk1, rfl, fun hcon => absurd hcon hclamp⟩

/-- C8: for a single enabled dynamic entity with zero acceleration,
positive friction and no collisions (no partners, not touching the
ground), the stored velocity after `update()` is a rescaling of the
previous one by a factor in `[0, 1]` — so its magnitude never grows and
its direction never flips — and it is exactly `(0,0,0)` whenever its
magnitude falls below the engine's velocity threshold. -/
theorem friction_decay (n : String) (e : Entity) (p : PhysParams) (g : Vec3)
    (thr dt : ℝ)
    (hen : p.enabled = true) (hst : p.is_static = false)
    (ha : p.acceleration = ⟨0, 0, 0⟩) (hf : 0 < p.friction) (hm : 0 < p.mass)
    (hdt : 0 ≤ dt) (hvz : 0 ≤ p.velocity.z) (hz : 0 ≤ e.position.z) :
    ∃ v1, velAt (update dt (⟨[(n, e)], [(n, p)], g, thr⟩ : EngineState)) n
        = some v1
      ∧ speedOf v1 ≤ speedOf p.velocity
      ∧ (∃ k : ℝ, 0 ≤ k ∧ k ≤ 1 ∧ v1 = k • p.velocity)
      ∧ (speedOf v1 < thr → v1 = ⟨0, 0, 0⟩) := by
  obtain ⟨k, hk0, hk1, hke, hclamp⟩ := newVelocity_scale thr dt p ha hf hm hdt
  have hnoz : ¬(e.position.z + (newVelocity thr dt p).z * dt < 0) := by
    rw [hke]
    simp only [Vec3.smul_z]
    push_neg
    nlinarith [mul_nonneg (mul_nonneg hk0 hvz) hdt, hz]
  rw [update_single_dyn dt n e p g thr hen hst,
    integrateStep_no_clamp thr dt e.position p hnoz]
  refine ⟨newVelocity thr dt p, by simp [velAt, dictGet], ?_,
    ⟨k, hk0, hk1, hke⟩, hclamp⟩
  rw [hke]
  exact speedOf_smul_le k p.velocity hk0 hk1

/-- Closed witness for C8: the slider under friction alone for one tick. -/
theorem friction_decay_witness :
    0 < sliderParams.friction ∧ 0 < sliderParams.mass
    ∧ sliderParams.acceleration = ⟨0, 0, 0⟩
    ∧ ∃ v1, velAt (update (1 / 10) (⟨[("slider", sliderEntity)],
        [("slider", sliderParams)], ⟨0, 0, -(981 / 100)⟩, 1 / 100⟩ : EngineState))
        "slider" = some v1
      ∧ speedOf v1 ≤ speedOf sliderParams.velocity
      ∧ (∃ k : ℝ, 0 ≤ k ∧ k ≤ 1 ∧ v1 = k • sliderParams.velocity)
      ∧ (speedOf v1 < 1 / 100 → v1 = ⟨0, 0, 0⟩) :=
  ⟨by norm_num [sliderParams], by norm_num [sliderParams], rfl,
    friction_decay "slider" sliderEntity sliderParams ⟨0, 0, -(981 / 100)⟩
      (1 / 100) (1 / 10) rfl rfl rfl
      (by norm_num [sliderParams])
      (by norm_num [sliderParams])
      (by norm_num)
      (by norm_num [sliderParams])
      (by norm_num [sliderEntity])⟩

/-- Closed witness for C10: the invariant instantiated at a state reached
by registering one entity and running one update. -/
theorem registration_invariant_witness :
    (update (1 / 10) (registerObject initState ballEntity none)).objects.map
        Prod.fst
      = (update (1 / 10)
          (registerObject initState ballEntity none)).physics_params.map Prod.fst
    ∧ ∀ (n : String) (e : Entity),
        dictGet (update (1 / 10)
          (registerObject initState ballEntity none)).objects n = some e →
        ∃ p, dictGet (update (1 / 10)
          (registerObject initState ballEntity none)).physics_params n = some p :=
  registration_invariant _
    (Reachable.step (1 / 10) (Reachable.register ballEntity none Reachable.init))

end ThreeDVis
